import Mathlib

/-!
Verification development for the impulso_local_back dynamic-schema record
engine (src/controllers/inscriptionController.js and the File model).
JavaScript request handlers are shallowly embedded as pure Lean functions:
the mutable Postgres database becomes explicit state (tables as association
lists from column names to values, where an absent key models SQL NULL),
and each controller's early-return error paths become constructors of a
result type.  JSON bodies are association lists of JS-like values; JS
object semantics (unique keys) are recovered through `Nodup` hypotheses
where a theorem needs them.
-/

namespace ImpulsoLocal

/-- JS-like runtime values appearing in request bodies and table cells. -/
inductive Value where
  | vNull
  | vUndef
  | vInt (n : Int)
  | vStr (s : String)
  | vBool (b : Bool)
deriving DecidableEq, Repr

/-- JavaScript truthiness of a value (`if (x)`). -/
def Value.truthy : Value → Bool
  | .vNull => false
  | .vUndef => false
  | .vInt n => n != 0
  | .vStr s => s != ""
  | .vBool b => b

/-- SQL equality semantics used by `WHERE col = :v`: NULL never compares equal. -/
def sqlEq (a b : Value) : Bool :=
  a != .vNull && b != .vNull && a == b

/-- JS `String.prototype.startsWith`, modelled over the character list. -/
def strStartsWith (s p : String) : Bool :=
  s.toList.take p.toList.length == p.toList

/-- JS `String.prototype.trim`, modelled over the character list. -/
def strTrim (s : String) : String :=
  String.mk (((s.toList.dropWhile Char.isWhitespace).reverse.dropWhile
    Char.isWhitespace).reverse)

/-- JS `toUpperCase`, modelled over the character list. -/
def strToUpper (s : String) : String :=
  String.mk (s.toList.map Char.toUpper)

/-- JS `toLowerCase`, modelled over the character list. -/
def strToLower (s : String) : String :=
  String.mk (s.toList.map Char.toLower)

/-- Database row: association list from column name to cell value.
An absent key models SQL NULL for that column. -/
abbrev Row := List (String × Value)

/-- Value of column `k` in row `r` (`none` models NULL / column absent). -/
def rowGet (r : Row) (k : String) : Option Value :=
  r.lookup k

/-- Row predicate for `WHERE k = v` with SQL NULL semantics. -/
def matchesField (k : String) (v : Value) (r : Row) : Bool :=
  match rowGet r k with
  | some w => sqlEq w v
  | none => false

/-- Assignment of one column in a row, mirroring `UPDATE ... SET "k" = v`
(replaces the existing cell, or appends the column when absent). -/
def setField (r : Row) (k : String) (v : Value) : Row :=
  if r.any (fun p => p.1 == k) then
    r.map (fun p => if p.1 == k then (k, v) else p)
  else
    r ++ [(k, v)]

/-- Sequential assignment of several columns (the full SET clause). -/
def setFields (r : Row) (fs : List (String × Value)) : Row :=
  fs.foldl (fun acc p => setField acc p.1 p.2) r

/-- Input filtering shared by the update/createRecord controllers: keep
exactly the pairs whose key is a live column and whose value is neither
null nor undefined (source: `fields.includes(key) && updatedData[key] !==
undefined && updatedData[key] !== null`). -/
def filterData (cols : List String) (data : List (String × Value)) : List (String × Value) :=
  data.filter (fun p => cols.contains p.1 && p.2 != Value.vNull && p.2 != Value.vUndef)

/-- Table-name guard used by the controllers that validate names
(source: `table_name.startsWith('inscription_') || ... 'provider_' || ... 'pi_'`). -/
def allowedTableName (t : String) : Bool :=
  strStartsWith t "inscription_" || strStartsWith t "provider_" || strStartsWith t "pi_"

/-- JS falsiness of an optional string request field (absent or empty). -/
def jsFalsyOptStr : Option String → Bool
  | none => true
  | some s => s == ""

/-! ### deleteTable (src/unnamed/part_001 lines 247-274)

The controller runs `SELECT COUNT(*) FROM <table>` directly (no name
validation), refuses to drop a non-empty table, and otherwise drops it. -/

/-- Live database for the table-level controllers: table name to its rows. -/
abbrev DB := List (String × List Row)

/-- Outcome of `deleteTable`. -/
inductive DeleteResult where
  | notEmpty
  | ok
  | sqlError
deriving DecidableEq, Repr

/-- Drop a table from the live database (`queryInterface.dropTable`). -/
def removeTable (db : DB) (t : String) : DB :=
  db.filter (fun p => p.1 != t)

/-- Embedding of `exports.deleteTable`.  A missing table makes the raw
`SELECT COUNT(*)` query throw, which the controller reports as a 500. -/
def deleteTable (db : DB) (t : String) : DeleteResult × DB :=
  match db.lookup t with
  | none => (.sqlError, db)
  | some rows =>
    if rows.length > 0 then (.notEmpty, db)
    else (.ok, removeTable db t)

/-! ### editTable (src/unnamed/part_001 lines 280-413)

No table-name validation.  Rejects `fieldsToEdit`; adds columns
(FOREIGN_KEY needs related table and column, other types via the
uppercased type map); deletes columns only when no row holds a non-null
value and the column has no `information_schema.key_column_usage` entry. -/

/-- One requested field of `createTable` / `editTable` (a JS object from the
request body; an absent `name` is modelled as `""`, both being JS-falsy). -/
structure FieldSpec where
  name : String := ""
  type : String := ""
  relatedTable : Option String := none
  relatedColumn : Option String := none
  allow_null : Option Bool := none
deriving DecidableEq, Repr

/-- Live state of one table for `editTable`: its columns, rows, and the set
of columns having entries in `information_schema.key_column_usage`
(the catalog relation the foreign-key check queries). -/
structure TableState where
  cols : List String
  rows : List Row
  keyColumnUsage : List String
deriving DecidableEq, Repr

/-- Outcome of `editTable`. -/
inductive EditResult where
  | unsupportedEdit
  | fieldNameRequired
  | fkMissingRelated (field : String)
  | invalidType (ty : String)
  | columnHasData (col : String)
  | columnHasFk (col : String)
  | sqlError
  | ok
deriving DecidableEq, Repr

/-- Row predicate of the `WHERE "c" IS NOT NULL` guard. -/
def cellNonNull (c : String) (r : Row) : Bool :=
  match rowGet r c with
  | some v => v != Value.vNull
  | none => false

/-- Number of rows with a non-null value in column `c`
(source: `SELECT COUNT(*) FROM t WHERE "c" IS NOT NULL`). -/
def countNonNull (rows : List Row) (c : String) : Nat :=
  (rows.filter (cellNonNull c)).length

/-- Effect of `queryInterface.removeColumn` on the modelled table state. -/
def dropColumn (ts : TableState) (c : String) : TableState :=
  { ts with
    cols := ts.cols.erase c,
    rows := ts.rows.map (fun r => r.filter (fun p => p.1 != c)) }

/-- Logical column types accepted by `editTable`'s uppercased type map
(the `FOREIGN_KEY` entry is consumed by the dedicated branch first). -/
def editTypeNames : List String :=
  ["VARCHAR(255)", "CHARACTER VARYING", "TEXT", "INTEGER", "DECIMAL", "BOOLEAN", "DATE"]

/-- Effect of `queryInterface.addColumn`; adding an already-present column
makes the DDL statement throw (500). -/
def addColumnTo (ts : TableState) (c : String) : EditResult × TableState :=
  if ts.cols.contains c then (.sqlError, ts)
  else (.ok, { ts with cols := ts.cols ++ [c] })

/-- The `fieldsToAdd` loop of `editTable`. -/
def processAdds (ts : TableState) : List FieldSpec → EditResult × TableState
  | [] => (.ok, ts)
  | f :: rest =>
    if strTrim f.name == "" then (.fieldNameRequired, ts)
    else if strToUpper f.type == "FOREIGN_KEY" then
      if jsFalsyOptStr f.relatedTable || jsFalsyOptStr f.relatedColumn then
        (.fkMissingRelated f.name, ts)
      else
        match addColumnTo ts f.name with
        | (.ok, ts') => processAdds ts' rest
        | r => r
    else if editTypeNames.contains (strToUpper f.type) then
      match addColumnTo ts f.name with
      | (.ok, ts') => processAdds ts' rest
      | r => r
    else (.invalidType f.type, ts)

/-- The `fieldsToDelete` loop of `editTable`: per column, referencing a
missing column makes the count query throw; then the data check, then the
key-column-usage check, then the drop. -/
def processDeletes (ts : TableState) : List String → EditResult × TableState
  | [] => (.ok, ts)
  | c :: rest =>
    if !ts.cols.contains c then (.sqlError, ts)
    else if countNonNull ts.rows c > 0 then (.columnHasData c, ts)
    else if ts.keyColumnUsage.contains c then (.columnHasFk c, ts)
    else processDeletes (dropColumn ts c) rest

/-- Embedding of `exports.editTable` (the `fieldsToDelete` entries carry the
`column_name` strings of the request objects). -/
def editTable (ts : TableState) (fieldsToEdit fieldsToAdd : List FieldSpec)
    (fieldsToDelete : List String) : EditResult × TableState :=
  if fieldsToEdit.length > 0 then (.unsupportedEdit, ts)
  else
    match processAdds ts fieldsToAdd with
    | (.ok, ts') => processDeletes ts' fieldsToDelete
    | r => r

/-! ### createTable (src/unnamed/part_001 lines 63-172)

Validates presence of name and fields, the three-name guard, and each
field (non-blank name; FOREIGN_KEY needs a related table and references
`relatedTable.id` ON UPDATE CASCADE / ON DELETE SET NULL; other types via
the case-sensitive type map); then creates the table with the
auto-increment `id` primary key and inserts the TablesMetadata entry. -/

/-- Native column types produced by the `validTypes` map of `createTable`. -/
inductive ColType where
  | string
  | text
  | integer
  | decimal
  | boolean
  | date
deriving DecidableEq, Repr

/-- One column definition as handed to `queryInterface.createTable`. -/
structure ColumnDef where
  type : ColType
  allowNull : Bool := true
  primaryKey : Bool := false
  autoIncrement : Bool := false
  references : Option (String × String) := none
  onUpdate : Option String := none
  onDelete : Option String := none
deriving DecidableEq, Repr

/-- The initial `id` column: integer, primary key, auto-increment. -/
def idColumn : ColumnDef :=
  { type := .integer, primaryKey := true, autoIncrement := true }

/-- Case-sensitive logical-to-native type map of `createTable`
(`FOREIGN_KEY` is present in the source map but consumed by the dedicated
branch before the map is consulted). -/
def createTypeOf : String → Option ColType
  | "VARCHAR(255)" => some .string
  | "TEXT" => some .text
  | "INTEGER" => some .integer
  | "DECIMAL" => some .decimal
  | "BOOLEAN" => some .boolean
  | "DATE" => some .date
  | "FOREIGN_KEY" => some .integer
  | _ => none

/-- JS object assignment `columns[name] = def` on the accumulating map. -/
def assignColumn (cols : List (String × ColumnDef)) (k : String) (v : ColumnDef) :
    List (String × ColumnDef) :=
  if cols.any (fun p => p.1 == k) then
    cols.map (fun p => if p.1 == k then (k, v) else p)
  else
    cols ++ [(k, v)]

/-- Validation failures of `createTable`. -/
inductive CreateErr where
  | missingData
  | invalidName
  | fieldNameRequired
  | fkMissingRelated (field : String)
  | invalidType (field ty : String)
deriving DecidableEq, Repr

/-- Column built for a FOREIGN_KEY field. -/
def fkColumn (relatedTable : String) (allowNull : Bool) : ColumnDef :=
  { type := .integer, allowNull := allowNull,
    references := some (relatedTable, "id"),
    onUpdate := some "CASCADE", onDelete := some "SET NULL" }

/-- The per-field loop of `createTable`, accumulating the columns object. -/
def buildColumns (acc : List (String × ColumnDef)) :
    List FieldSpec → Except CreateErr (List (String × ColumnDef))
  | [] => .ok acc
  | f :: rest =>
    if strTrim f.name == "" then .error .fieldNameRequired
    else
      let allowNull := f.allow_null != some false
      if f.type == "FOREIGN_KEY" then
        if jsFalsyOptStr f.relatedTable then .error (.fkMissingRelated f.name)
        else
          buildColumns (assignColumn acc f.name (fkColumn (f.relatedTable.getD "") allowNull)) rest
      else
        match createTypeOf f.type with
        | none => .error (.invalidType f.name f.type)
        | some ty =>
          buildColumns (assignColumn acc f.name { type := ty, allowNull := allowNull }) rest

/-- Schema-level database state: created tables with their column
definitions, plus the TablesMetadata registry of table names. -/
structure SchemaDB where
  tables : List (String × List (String × ColumnDef))
  registry : List String
deriving DecidableEq, Repr

/-- Embedding of `exports.createTable`. -/
def createTable (db : SchemaDB) (table_name : String) (fields : List FieldSpec) :
    Except CreateErr SchemaDB :=
  if table_name == "" || fields.isEmpty then .error .missingData
  else if !allowedTableName table_name then .error .invalidName
  else
    match buildColumns [("id", idColumn)] fields with
    | .error e => .error e
    | .ok cols =>
      .ok { tables := db.tables ++ [(table_name, cols)],
            registry := db.registry ++ [table_name] }

/-! ### getTableRecords (src/unnamed/part_001 lines 882-966)

Validates the table name, then builds `SELECT "t".* FROM "t"`; for `pi_`
tables it appends an INNER JOIN on `inscription_caracterizacion` via
`caracterizacion_id` and the fixed `"Estado" IN (1, 2)` clause; each query
filter whose key is `Estado` (on a `pi_` table) targets the joined
characterization, otherwise it is matched case-insensitively against the
table's columns and unknown keys are ignored. -/

/-- SQL equality between two cell values read from rows (NULL-safe). -/
def sqlEqCells (a b : Option Value) : Bool :=
  match a, b with
  | some x, some y => sqlEq x y
  | _, _ => false

/-- Predicate contributed by one query filter, if its key is recognised
(`none` models the silently-ignored unknown key).  The pair carries the
row of the base table and, for `pi_` tables, its joined characterization. -/
def filterClause (t : String) (cols : List (String × String)) (kv : String × Value) :
    Option (Row × Row → Bool) :=
  if strStartsWith t "pi_" && kv.1 == "Estado" then
    some (fun rc => sqlEqCells (rowGet rc.2 "Estado") (some kv.2))
  else
    match cols.find? (fun c => strToLower c.1 == strToLower kv.1) with
    | some c => some (fun rc => sqlEqCells (rowGet rc.1 c.1) (some kv.2))
    | none => none

/-- The `"Estado" IN (1, 2)` clause added for `pi_` tables. -/
def estadoGate (isPi : Bool) (rc : Row × Row) : Bool :=
  !isPi || (rowGet rc.2 "Estado" == some (.vInt 1) || rowGet rc.2 "Estado" == some (.vInt 2))

/-- Embedding of `exports.getTableRecords`: `cols` is the column catalog of
`t`, `rows` its rows, `carRows` the rows of `inscription_caracterizacion`.
The result lists the base-table part of every surviving (joined) row. -/
def getTableRecords (t : String) (cols : List (String × String)) (rows : List Row)
    (carRows : List Row) (filters : List (String × Value)) : Except Unit (List Row) :=
  if !allowedTableName t then .error ()
  else
    let isPi := strStartsWith t "pi_"
    let basePairs : List (Row × Row) :=
      if isPi then
        rows.flatMap (fun r =>
          (carRows.filter (fun c =>
            sqlEqCells (rowGet r "caracterizacion_id") (rowGet c "id"))).map (fun c => (r, c)))
      else
        rows.map (fun r => (r, []))
    let preds := filters.filterMap (filterClause t cols)
    .ok ((basePairs.filter (fun rc => estadoGate isPi rc && preds.all (fun p => p rc))).map
      (fun rc => rc.1))

/-! ### getTableRecordById (src/unnamed/part_001 lines 973-1170)

No table-name validation.  The dynamic model keeps only the columns whose
catalog type is in the supported list; the record is fetched by primary
key; every foreign key of the table is resolved, subject to the
domain-compatibility filter, into the full `{id, displayValue}` list of
the related table, keyed by the FK column.  The display field is the
first model attribute other than `id`. -/

/-- Catalog types accepted by the dynamically-defined Sequelize models
(`validTypes` of the read-side controllers, keyed after `toLowerCase`). -/
def modelTypeNames : List String :=
  ["varchar", "character varying", "text", "integer", "boolean", "date"]

/-- Attribute names of the dynamically defined model for a table whose
catalog reports `cols` (columns of unsupported type are dropped, order
preserved). -/
def modelAttrs (cols : List (String × String)) : List String :=
  (cols.filter (fun c => modelTypeNames.contains (strToLower c.2))).map (fun c => c.1)

/-- Display-field choice: the first model attribute other than `id`,
falling back to `id` (source: `Object.keys(...).find(col => col !== 'id')`). -/
def displayFieldOf (attrs : List String) : String :=
  (attrs.find? (fun c => c != "id")).getD "id"

/-- Domain-compatibility filter of the relation resolver. -/
def domainCompatible (t rel : String) : Bool :=
  if strStartsWith t "provider_" && !strStartsWith rel "provider_" then false
  else if strStartsWith t "inscription_" && !strStartsWith rel "inscription_" then false
  else if strStartsWith t "pi_" &&
      !(strStartsWith rel "pi_" || strStartsWith rel "inscription_" ||
        strStartsWith rel "provider_") then
    false
  else true

/-- Full catalog: every table's ordered `(column_name, data_type)` list. -/
abbrev Catalog := List (String × List (String × String))

/-- All rows of every table, keyed by table name. -/
abbrev TableRows := List (String × List Row)

/-- Related-table resolution for one surviving foreign key: all rows of the
related table as `(id, displayValue)` pairs, or `none` when the related
table has no rows (the source then skips the entry). -/
def relatedEntry (catalog : Catalog) (rowsOf : TableRows) (rel : String) :
    Option (List (Value × Value)) :=
  let attrs := modelAttrs ((catalog.lookup rel).getD [])
  let rows := (rowsOf.lookup rel).getD []
  if rows.isEmpty then none
  else
    let displayField := displayFieldOf attrs
    some (rows.map (fun r =>
      ((rowGet r "id").getD .vNull, (rowGet r displayField).getD .vNull)))

/-- JS object assignment `relatedData[col] = entries`. -/
def assignEntry (acc : List (String × List (Value × Value))) (k : String)
    (v : List (Value × Value)) : List (String × List (Value × Value)) :=
  if acc.any (fun p => p.1 == k) then
    acc.map (fun p => if p.1 == k then (k, v) else p)
  else
    acc ++ [(k, v)]

/-- One iteration of the relation-resolution loop: skip the foreign key
when the related table fails the domain filter or is absent, skip it when
the related table has no rows, otherwise assign its entry list. -/
def relatedStep (t : String) (catalog : Catalog) (rowsOf : TableRows)
    (acc : List (String × List (Value × Value))) (fk : String × String) :
    List (String × List (Value × Value)) :=
  if !domainCompatible t fk.2 then acc
  else if fk.2 == "" then acc
  else
    match relatedEntry catalog rowsOf fk.2 with
    | none => acc
    | some entries => assignEntry acc fk.1 entries

/-- The relation-resolution loop of `getTableRecordById`: `fks` is the
`(column_name, related_table)` list reported by the catalog join. -/
def relatedDataOf (t : String) (fks : List (String × String)) (catalog : Catalog)
    (rowsOf : TableRows) : List (String × List (Value × Value)) :=
  fks.foldl (relatedStep t catalog rowsOf) []

/-- Failure modes of `getTableRecordById`. -/
inductive GetRecordErr where
  | noColumns
  | notFound
deriving DecidableEq, Repr

/-- Row predicate for `id = rid` (the `findByPk` / `WHERE id = ?` lookups). -/
def rowIdIs (rid : Int) (r : Row) : Bool :=
  matchesField "id" (.vInt rid) r

/-- Embedding of `exports.getTableRecordById` (fresh-model branch: the
table's model is defined from the live catalog on this request). -/
def getTableRecordById (t : String) (catalog : Catalog) (rowsOf : TableRows)
    (fks : List (String × String)) (rid : Int) :
    Except GetRecordErr (Row × List (String × List (Value × Value))) :=
  let cols := (catalog.lookup t).getD []
  if cols.isEmpty then .error .noColumns
  else
    match ((rowsOf.lookup t).getD []).find? (rowIdIs rid) with
    | none => .error .notFound
    | some r => .ok (r, relatedDataOf t fks catalog rowsOf)

/-! ### updateTableRecord / updatePiRecord (src/unnamed/part_001
lines 1176-1262 and 1268-1362)

Identical bodies behind different prefix guards: existence check by id,
column fetch, input filtering to live non-null fields, then a single
parameterized UPDATE returning the full row. -/

/-- Outcome of the two update controllers. -/
inductive UpdateResult where
  | invalidTable
  | notFound
  | noFields
  | noValidFields
  | ok (record : Row)
deriving DecidableEq, Repr

/-- The UPDATE statement: set the filtered fields on every row whose id
matches (unique in a well-formed table). -/
def updateById (rows : List Row) (rid : Int) (fd : List (String × Value)) : List Row :=
  rows.map (fun r => if rowIdIs rid r then setFields r fd else r)

/-- Shared body of the two update controllers, past their prefix guards. -/
def updateRecordCore (cols : List String) (rows : List Row) (rid : Int)
    (data : List (String × Value)) : UpdateResult × List Row :=
  match rows.find? (rowIdIs rid) with
  | none => (.notFound, rows)
  | some r0 =>
    if cols.isEmpty then (.noFields, rows)
    else
      let fd := filterData cols data
      if fd.isEmpty then (.noValidFields, rows)
      else (.ok (setFields r0 fd), updateById rows rid fd)

/-- Embedding of `exports.updateTableRecord` (provider_/inscription_ guard). -/
def updateTableRecord (t : String) (cols : List String) (rows : List Row) (rid : Int)
    (data : List (String × Value)) : UpdateResult × List Row :=
  if !(strStartsWith t "provider_" || strStartsWith t "inscription_") then (.invalidTable, rows)
  else updateRecordCore cols rows rid data

/-- Embedding of `exports.updatePiRecord` (pi_ guard). -/
def updatePiRecord (t : String) (cols : List String) (rows : List Row) (rid : Int)
    (data : List (String × Value)) : UpdateResult × List Row :=
  if !strStartsWith t "pi_" then (.invalidTable, rows)
  else updateRecordCore cols rows rid data

/-! ### createTableRecord (src/unnamed/part_001 lines 2027-2168)

The upsert-by-natural-key controller for `pi_` tables: for
`pi_formulacion` the key is `(caracterizacion_id, rel_id_prov)`, for every
other `pi_` table it is `caracterizacion_id` alone; a matching row is
updated with all filtered fields, otherwise a new row is inserted. -/

/-- Live state of the target `pi_` table: its rows plus the next value of
the `id` sequence. -/
structure PiState where
  rows : List Row
  nextId : Int
deriving DecidableEq, Repr

/-- Outcome of `createTableRecord`. -/
inductive PiCreateResult where
  | invalidName
  | noCols
  | updated (record : Row)
  | created (record : Row)
deriving DecidableEq, Repr

/-- Row produced by the INSERT: the filtered fields, with `id` drawn from
the sequence unless the caller supplied one explicitly. -/
def insertRow (fd : List (String × Value)) (nextId : Int) : Row :=
  if (fd.lookup "id").isSome then fd else ("id", .vInt nextId) :: fd

/-- Update of the row found by the natural-key probe (`UPDATE ... WHERE id =
existingRecords[0].id` with all filtered fields in the SET clause). -/
def upsertUpdate (st : PiState) (r0 : Row) (fd : List (String × Value)) :
    PiCreateResult × PiState :=
  match rowGet r0 "id" with
  | some (.vInt rid) =>
    (.updated (setFields r0 fd), { st with rows := updateById st.rows rid fd })
  | _ => (.updated (setFields r0 fd), st)

/-- Insertion branch shared by both natural-key shapes. -/
def upsertInsert (st : PiState) (fd : List (String × Value)) : PiCreateResult × PiState :=
  let r := insertRow fd st.nextId
  (.created r, { rows := st.rows ++ [r], nextId := st.nextId + 1 })

/-- Embedding of `exports.createTableRecord`; `cols` is the table's live
column list (already filtered of blank names by the source's
`.filter(Boolean)`). -/
def createTableRecord (t : String) (cols : List String) (st : PiState)
    (data : List (String × Value)) : PiCreateResult × PiState :=
  if !strStartsWith t "pi_" then (.invalidName, st)
  else if cols.isEmpty then (.noCols, st)
  else
    let fd := filterData cols data
    if t == "pi_formulacion" then
      match fd.lookup "caracterizacion_id", fd.lookup "rel_id_prov" with
      | some cid, some rel =>
        if cid.truthy && rel.truthy then
          match st.rows.find? (fun r => matchesField "caracterizacion_id" cid r &&
              matchesField "rel_id_prov" rel r) with
          | some r0 => upsertUpdate st r0 fd
          | none => upsertInsert st fd
        else upsertInsert st fd
      | _, _ => upsertInsert st fd
    else
      match fd.lookup "caracterizacion_id" with
      | some cid =>
        if cid.truthy then
          match st.rows.find? (matchesField "caracterizacion_id" cid) with
          | some r0 => upsertUpdate st r0 fd
          | none => upsertInsert st fd
        else upsertInsert st fd
      | none => upsertInsert st fd

/-! ### uploadCsv (src/unnamed/part_001 lines 646-793)

Requires an uploaded file; 404s when the table or its columns are missing
(without touching the temp file); otherwise parses the CSV, keeps only the
keys of the dynamic model, coerces string-typed cells, drops an
auto-increment `id`, bulk-inserts, and unlinks the temp file in the
`finally` of the insertion step only. -/

/-- Catalog column for the CSV import: name, data type, and whether its
default includes `nextval` (auto-increment detection). -/
structure CsvCol where
  name : String
  dataType : String
  nextvalDefault : Bool
deriving DecidableEq, Repr

/-- Outcome of `uploadCsv`. -/
inductive CsvResult where
  | noFile
  | tableMissing
  | noColumns
  | insertError
  | inserted (rows : List Row)
deriving DecidableEq, Repr

/-- JS `toString()` of a cell value (CSV cells arrive as strings already;
the general cases mirror JS coercion). -/
def jsToString : Value → String
  | .vStr s => s
  | .vInt n => toString n
  | .vBool b => if b then "true" else "false"
  | .vNull => "null"
  | .vUndef => "undefined"

/-- Text-typed catalog names whose cells get the trim-or-empty coercion. -/
def csvTextTypes : List String := ["varchar", "character varying", "text"]

/-- Per-row processing of the CSV stream: keep keys known to the dynamic
model, coerce text cells (`data[key] ? data[key].toString().trim() : ''`),
and drop an auto-increment `id`. -/
def processCsvRow (tcols : List CsvCol) (r : Row) : Row :=
  let pd := r.foldl (fun acc kv =>
    match tcols.find? (fun c => c.name == kv.1) with
    | some c =>
      if csvTextTypes.contains (strToLower c.dataType) then
        acc ++ [(kv.1, .vStr (if kv.2.truthy then (jsToString kv.2).trim else ""))]
      else acc ++ [(kv.1, kv.2)]
    | none => acc) []
  let idAuto := match tcols.find? (fun c => c.name == "id") with
    | some c => c.nextvalDefault
    | none => false
  if idAuto then pd.filter (fun kv => kv.1 != "id") else pd

/-- Embedding of `exports.uploadCsv`.  The second component reports whether
the temporary uploaded file was unlinked before the request completed;
`bulkOk` stands for the database's verdict on `bulkCreate`. -/
def uploadCsv (fileUploaded tableExists : Bool) (cols : List CsvCol)
    (csvRows : List Row) (bulkOk : Bool) : CsvResult × Bool :=
  if !fileUploaded then (.noFile, false)
  else if !tableExists then (.tableMissing, false)
  else if cols.isEmpty then (.noColumns, false)
  else
    let tcols := cols.filter (fun c => modelTypeNames.contains (strToLower c.dataType))
    let results := csvRows.map (processCsvRow tcols)
    if bulkOk then (.inserted results, true) else (.insertError, true)

/-! ### uploadFile (src/unnamed/part_001 lines 1596-1668)

Validates the file and the table name; for `pi_` tables requires
`caracterizacion_id`, stores the file under
`/var/data/uploads/inscription_caracterizacion/<cid>/`, and persists a
File row whose `file_path` joins `/uploads`, the *table name*, the
effective record id and the final file name. -/

/-- Failure modes of `uploadFile`. -/
inductive UploadErr where
  | noFile
  | invalidTable
  | missingCaracterizacion
deriving DecidableEq, Repr

/-- Outcome of a successful `uploadFile`: the filesystem destination and
the persisted File row's fields. -/
structure UploadOut where
  uploadDir : String
  finalFileName : String
  record_id : String
  table_name : String
  file_path : String
  source : String
deriving DecidableEq, Repr

/-- Concatenation of path segments (`path.join` on segments that carry no
trailing separators). -/
def pathJoin (parts : List String) : String :=
  String.intercalate "/" parts

/-- Extension of a file name as `path.extname` computes it for plain
basenames: the suffix from the last dot, empty when there is no dot or the
only dot starts the name. -/
def extnameOf (s : String) : String :=
  let cs := s.toList
  let after := (cs.reverse.takeWhile (fun c => c != '.')).reverse
  if after.length == cs.length then ""
  else if cs.length == after.length + 1 && cs.take 1 == ['.'] then ""
  else String.mk ('.' :: after)

/-- Embedding of `exports.uploadFile`: `rid` is the `record_id` URL
parameter, `fileName`/`cid`/`source` the optional body fields, and
`originalname` the uploaded file's original name. -/
def uploadFile (t rid : String) (fileName cid source : Option String)
    (filePresent : Bool) (originalname : String) : Except UploadErr UploadOut :=
  if !filePresent then .error .noFile
  else if !allowedTableName t then .error .invalidTable
  else
    let piTable := strStartsWith t "pi_"
    if piTable && jsFalsyOptStr cid then .error .missingCaracterizacion
    else
      let finalRecordId := if piTable then cid.getD "" else rid
      let uploadDir :=
        if piTable then
          pathJoin ["/var/data/uploads", "inscription_caracterizacion", cid.getD ""]
        else pathJoin ["/var/data/uploads", t, rid]
      let ext := extnameOf originalname
      let finalFileName := match fileName with
        | some fn => if fn != "" then fn ++ ext else originalname
        | none => originalname
      .ok { uploadDir := uploadDir,
            finalFileName := finalFileName,
            record_id := finalRecordId,
            table_name := t,
            file_path := pathJoin ["/uploads", t, finalRecordId, finalFileName],
            source := match source with
              | some s => if s != "" then s else "unknown"
              | none => "unknown" }

/-! ## General lemmas about the row and list primitives -/

/-- Truthy values are not SQL NULL. -/
theorem Value.ne_null_of_truthy {v : Value} (h : v.truthy = true) : v ≠ .vNull := by
  cases v <;> simp_all [Value.truthy]

/-- Truthy values are not undefined. -/
theorem Value.ne_undef_of_truthy {v : Value} (h : v.truthy = true) : v ≠ .vUndef := by
  cases v <;> simp_all [Value.truthy]

/-- SQL equality is reflexive away from NULL. -/
theorem sqlEq_self {v : Value} (h : v ≠ .vNull) : sqlEq v v = true := by
  simp [sqlEq, h]

/-- Keys absent from an association list have no lookup result. -/
theorem lookup_eq_none_of_keys_ne {α : Type} {l : List (String × α)} {k : String}
    (h : ∀ p ∈ l, p.1 ≠ k) : l.lookup k = none := by
  induction l with
  | nil => rfl
  | cons p rest ih =>
    have hp : p.1 ≠ k := h p (List.mem_cons_self p rest)
    have hk : (k == p.1) = false := beq_false_of_ne (Ne.symm hp)
    simp only [List.lookup, hk]
    exact ih (fun q hq => h q (List.mem_cons_of_mem p hq))

/-- Lookup over an append resolves in the first block when possible. -/
theorem lookup_append {α : Type} (l₁ l₂ : List (String × α)) (k : String) :
    (l₁ ++ l₂).lookup k =
      match l₁.lookup k with
      | some v => some v
      | none => l₂.lookup k := by
  induction l₁ with
  | nil => rfl
  | cons p rest ih =>
    simp only [List.cons_append, List.lookup]
    cases hk : (k == p.1)
    · exact ih
    · rfl

/-- Find over an append skips a first block rejected by the predicate. -/
theorem find?_append_of_none {α : Type} {l₁ l₂ : List α} {p : α → Bool}
    (h : ∀ x ∈ l₁, p x = false) : (l₁ ++ l₂).find? p = l₂.find? p := by
  induction l₁ with
  | nil => rfl
  | cons x rest ih =>
    have hx : p x = false := h x (List.mem_cons_self x rest)
    simp only [List.cons_append, List.find?, hx]
    exact ih (fun y hy => h y (List.mem_cons_of_mem x hy))

/-- Replacing key `k` cells preserves lookups of any other key. -/
theorem lookup_mapReplace_ne {r : Row} {k k' : String} {v : Value} (h : k' ≠ k) :
    (r.map (fun p => if p.1 == k then (k, v) else p)).lookup k' = r.lookup k' := by
  induction r with
  | nil => rfl
  | cons p rest ih =>
    simp only [List.map_cons]
    by_cases hp : p.1 = k
    · rw [if_pos (beq_iff_eq.mpr hp)]
      have h2 : (k' == k) = false := beq_eq_false_iff_ne.mpr h
      have h3 : (k' == p.1) = false := beq_eq_false_iff_ne.mpr (hp ▸ h)
      simp only [List.lookup, h2, h3]
      exact ih
    · rw [if_neg (by simp [hp])]
      simp only [List.lookup]
      cases hk : (k' == p.1)
      · exact ih
      · rfl

/-- Replacing key `k` cells makes lookup of `k` return the new value,
provided the key occurs in the list. -/
theorem lookup_mapReplace_self {r : Row} {k : String} {v : Value}
    (h : r.any (fun p => p.1 == k) = true) :
    (r.map (fun p => if p.1 == k then (k, v) else p)).lookup k = some v := by
  induction r with
  | nil => simp at h
  | cons p rest ih =>
    simp only [List.map_cons]
    by_cases hp : p.1 = k
    · rw [if_pos (beq_iff_eq.mpr hp)]
      simp [List.lookup]
    · rw [if_neg (by simp [hp])]
      have h1 : (p.1 == k) = false := beq_eq_false_iff_ne.mpr hp
      have h2 : (k == p.1) = false := beq_eq_false_iff_ne.mpr (Ne.symm hp)
      have hrest : rest.any (fun p => p.1 == k) = true := by
        simpa [List.any_cons, h1] using h
      simp only [List.lookup, h2]
      exact ih hrest

/-- Setting one column leaves every other column's value unchanged. -/
theorem rowGet_setField_ne {r : Row} {k k' : String} {v : Value} (h : k' ≠ k) :
    rowGet (setField r k v) k' = rowGet r k' := by
  unfold setField rowGet
  by_cases hany : r.any (fun p => p.1 == k)
  · simp only [hany, if_true]
    exact lookup_mapReplace_ne h
  · simp only [hany, Bool.false_eq_true, if_false]
    rw [lookup_append]
    have hk : (k' == k) = false := beq_false_of_ne h
    cases hr : r.lookup k' <;> simp [List.lookup, hk]

/-- Setting one column makes lookup of that column return the new value. -/
theorem rowGet_setField_self {r : Row} {k : String} {v : Value} :
    rowGet (setField r k v) k = some v := by
  unfold setField rowGet
  by_cases hany : r.any (fun p => p.1 == k)
  · simp only [hany, if_true]
    exact lookup_mapReplace_self hany
  · simp only [hany, Bool.false_eq_true, if_false]
    rw [lookup_append]
    have hr : r.lookup k = none := by
      apply lookup_eq_none_of_keys_ne
      intro q hq hqk
      exact hany (List.any_eq_true.mpr ⟨q, hq, beq_iff_eq.mpr hqk⟩)
    simp [hr, List.lookup]

/-- Columns untouched by a SET clause keep their prior value. -/
theorem rowGet_setFields_of_not_mem {fs : List (String × Value)} {r : Row} {k : String}
    (h : ∀ p ∈ fs, p.1 ≠ k) : rowGet (setFields r fs) k = rowGet r k := by
  induction fs generalizing r with
  | nil => rfl
  | cons p rest ih =>
    have hstep : setFields r (p :: rest) = setFields (setField r p.1 p.2) rest := rfl
    rw [hstep, ih (fun q hq => h q (List.mem_cons_of_mem p hq))]
    exact rowGet_setField_ne (Ne.symm (h p (List.mem_cons_self p rest)))

/-- A SET clause with duplicate-free keys writes each listed column's value. -/
theorem rowGet_setFields_of_lookup {fs : List (String × Value)} {r : Row} {k : String}
    {v : Value} (hnd : (fs.map Prod.fst).Nodup) (h : fs.lookup k = some v) :
    rowGet (setFields r fs) k = some v := by
  induction fs generalizing r with
  | nil => simp [List.lookup] at h
  | cons p rest ih =>
    simp only [List.map_cons, List.nodup_cons] at hnd
    by_cases hk : k = p.1
    · have hv : v = p.2 := by
        have hbeq : (k == p.1) = true := beq_iff_eq.mpr hk
        exact (by simpa [List.lookup, hbeq] using h : p.2 = v).symm
      subst hv
      have hknotin : ∀ q ∈ rest, q.1 ≠ k := by
        intro q hq hqk
        exact hnd.1 (List.mem_map.mpr ⟨q, hq, by rw [hqk, hk]⟩)
      have hstep : setFields r (p :: rest) = setFields (setField r p.1 p.2) rest := rfl
      rw [hstep, rowGet_setFields_of_not_mem hknotin, hk]
      exact rowGet_setField_self
    · have hfind : rest.lookup k = some v := by
        have hbeq : (k == p.1) = false := beq_eq_false_iff_ne.mpr hk
        simpa [List.lookup, hbeq] using h
      have hstep : setFields r (p :: rest) = setFields (setField r p.1 p.2) rest := rfl
      rw [hstep]
      exact ih hnd.2 hfind

/-! ## C7: deleteTable emptiness guard -/

/-- C7: `deleteTable` on a table holding at least one row always fails with
the not-empty error and leaves the database unchanged; on a table with
zero rows it always succeeds, the table is dropped, and the name is absent
from every subsequent listing of the database. -/
theorem deleteTable_emptiness (db : DB) (t : String) (rows : List Row)
    (h : db.lookup t = some rows) :
    (rows ≠ [] → deleteTable db t = (.notEmpty, db)) ∧
    (rows = [] → deleteTable db t = (.ok, removeTable db t) ∧
      t ∉ (removeTable db t).map Prod.fst) := by
  constructor
  · intro hne
    unfold deleteTable
    rw [h]
    simp [List.length_pos.mpr hne]
  · intro he
    subst he
    unfold deleteTable
    rw [h]
    refine ⟨by simp, ?_⟩
    simp only [removeTable, List.mem_map]
    rintro ⟨p, hp, hpt⟩
    rw [List.mem_filter] at hp
    simp [hpt] at hp

/-- Witness for C7 at a one-row and at an empty table. -/
theorem deleteTable_emptiness_witness :
    deleteTable [("inscription_a", [[("id", Value.vInt 1)]])] "inscription_a" =
      (.notEmpty, [("inscription_a", [[("id", Value.vInt 1)]])]) ∧
    deleteTable [("inscription_b", [])] "inscription_b" = (.ok, []) := by
  constructor
  · exact (deleteTable_emptiness [("inscription_a", [[("id", Value.vInt 1)]])]
      "inscription_a" [[("id", Value.vInt 1)]] rfl).1 (by decide)
  · have h := ((deleteTable_emptiness [("inscription_b", [])] "inscription_b" []
      rfl).2 rfl).1
    simpa [removeTable] using h

/-! ## C1: table-name validation coverage -/

/-- C1 (counterexample): the table name `users` matches none of the three
prefixes, yet `deleteTable` drops it, `editTable` removes one of its
columns, and `getTableRecordById` returns its record — none of these three
endpoints rejects the name with a validation error before querying the
database. -/
theorem prefixValidation_counterexample :
    allowedTableName "users" = false ∧
    deleteTable [("users", [])] "users" = (.ok, []) ∧
    editTable ⟨["id", "c"], [], []⟩ [] [] ["c"] = (.ok, ⟨["id"], [], []⟩) ∧
    getTableRecordById "users" [("users", [("id", "integer")])]
      [("users", [[("id", Value.vInt 1)]])] [] 1 =
      .ok ([("id", Value.vInt 1)], []) := by
  refine ⟨by decide, rfl, rfl, rfl⟩

/-- C1 (amended): most record endpoints do validate the prefix, but
`deleteTable`, `editTable` and `getTableRecordById` perform no table-name
validation at all: even for a name carrying none of the three prefixes
they proceed against the database — dropping the empty table, dropping a
clean column, and returning the requested record respectively. -/
theorem prefixValidation_amended (db : DB) (t : String) (ts : TableState) (c : String)
    (catalog : Catalog) (rowsOf : TableRows) (fks : List (String × String))
    (rid : Int) (r : Row)
    (hpre : allowedTableName t = false)
    (hdb : db.lookup t = some [])
    (hnd : ts.cols.Nodup)
    (hc : c ∈ ts.cols)
    (hcd : countNonNull ts.rows c = 0)
    (hck : c ∉ ts.keyColumnUsage)
    (hcols : (catalog.lookup t).getD [] ≠ [])
    (hrow : ((rowsOf.lookup t).getD []).find? (rowIdIs rid) = some r) :
    deleteTable db t = (.ok, removeTable db t) ∧
    editTable ts [] [] [c] = (.ok, dropColumn ts c) ∧
    c ∉ (dropColumn ts c).cols ∧
    getTableRecordById t catalog rowsOf fks rid =
      .ok (r, relatedDataOf t fks catalog rowsOf) := by
  refine ⟨?_, ?_, ?_, ?_⟩
  · unfold deleteTable
    rw [hdb]
    simp
  · unfold editTable processAdds processDeletes
    have h1 : ts.cols.contains c = true := List.elem_eq_true_of_mem hc
    have h2 : ts.keyColumnUsage.contains c = false := by
      cases hcc : ts.keyColumnUsage.contains c
      · rfl
      · exact absurd (List.mem_of_elem_eq_true hcc) hck
    simp [h1, h2, hcd, processDeletes, hc, hck]
  · simp only [dropColumn]
    exact hnd.not_mem_erase
  · unfold getTableRecordById
    have : ((catalog.lookup t).getD []).isEmpty = false := List.isEmpty_eq_false.mpr hcols
    simp [this, hrow]

/-- Witness for the amended C1 at concrete non-prefixed tables. -/
theorem prefixValidation_amended_witness :
    deleteTable [("usuarios", [])] "usuarios" =
      (.ok, removeTable [("usuarios", [])] "usuarios") ∧
    editTable ⟨["id", "x"], [], ["id"]⟩ [] [] ["x"] =
      (.ok, dropColumn ⟨["id", "x"], [], ["id"]⟩ "x") ∧
    "x" ∉ (dropColumn ⟨["id", "x"], [], ["id"]⟩ "x").cols ∧
    getTableRecordById "usuarios" [("usuarios", [("id", "integer"), ("n", "text")])]
      [("usuarios", [[("id", Value.vInt 2), ("n", Value.vStr "u")]])] [] 2 =
      .ok ([("id", Value.vInt 2), ("n", Value.vStr "u")],
        relatedDataOf "usuarios" [] [("usuarios", [("id", "integer"), ("n", "text")])]
          [("usuarios", [[("id", Value.vInt 2), ("n", Value.vStr "u")]])]) :=
  prefixValidation_amended [("usuarios", [])] "usuarios" ⟨["id", "x"], [], ["id"]⟩ "x"
    [("usuarios", [("id", "integer"), ("n", "text")])]
    [("usuarios", [[("id", Value.vInt 2), ("n", Value.vStr "u")]])] [] 2
    [("id", Value.vInt 2), ("n", Value.vStr "u")]
    (by decide) rfl (by decide) (by decide) (by decide) (by decide) (by decide) rfl

/-! ## C2: persisted upload paths -/

/-- C2 (counterexample): uploading to the `pi_` table `pi_anexos` with
caracterizacion id 5 stores the file under the
`inscription_caracterizacion` directory, yet the persisted File row's path
is `/uploads/pi_anexos/5/doc.pdf` — its table segment is the `pi_` table
name, not `inscription_caracterizacion` as the claim requires. -/
theorem uploadFilePath_counterexample :
    uploadFile "pi_anexos" "7" none (some "5") none true "doc.pdf" =
      .ok { uploadDir := "/var/data/uploads/inscription_caracterizacion/5",
            finalFileName := "doc.pdf",
            record_id := "5",
            table_name := "pi_anexos",
            file_path := "/uploads/pi_anexos/5/doc.pdf",
            source := "unknown" } ∧
    "/uploads/pi_anexos/5/doc.pdf" ≠ "/uploads/inscription_caracterizacion/5/doc.pdf" := by
  exact ⟨rfl, by decide⟩

/-- C2 (amended): a successful upload on a `pi_` table persists the path
`/uploads/<table>/<caracterizacion_id>/<filename>` — the caracterizacion
id replaces the record id, but the table segment stays the `pi_` table
name, even though the file itself is written under the
`inscription_caracterizacion` storage directory; every other valid table
persists `/uploads/<table>/<record_id>/<filename>`. -/
theorem uploadFilePath_amended :
    (∀ (t rid : String) (fileName source : Option String) (cid originalname : String)
        (out : UploadOut),
      strStartsWith t "pi_" = true → cid ≠ "" →
      uploadFile t rid fileName (some cid) source true originalname = .ok out →
      out.file_path = pathJoin ["/uploads", t, cid, out.finalFileName] ∧
      out.record_id = cid ∧
      out.uploadDir = pathJoin ["/var/data/uploads", "inscription_caracterizacion", cid]) ∧
    (∀ (t rid : String) (fileName cid source : Option String) (originalname : String)
        (out : UploadOut),
      allowedTableName t = true → strStartsWith t "pi_" = false →
      uploadFile t rid fileName cid source true originalname = .ok out →
      out.file_path = pathJoin ["/uploads", t, rid, out.finalFileName] ∧
      out.record_id = rid ∧
      out.uploadDir = pathJoin ["/var/data/uploads", t, rid]) := by
  constructor
  · intro t rid fileName source cid originalname out hpi hcid h
    have ha : allowedTableName t = true := by
      simp [allowedTableName, hpi]
    have hfalsy : jsFalsyOptStr (some cid) = false := by
      simp [jsFalsyOptStr, hcid]
    simp only [uploadFile, Bool.not_true, Bool.false_eq_true, if_false, ha, hpi, hfalsy,
      Bool.and_false, Bool.and_true, if_true, Option.getD_some] at h
    cases h
    cases hfn : fileName <;> simp [hfn]
  · intro t rid fileName cid source originalname out ha hpi h
    simp only [uploadFile, Bool.not_true, Bool.false_eq_true, if_false, ha, hpi,
      Bool.false_and, if_true] at h
    cases h
    simp

/-- Witness for the amended C2 on both table shapes. -/
theorem uploadFilePath_amended_witness :
    (({ uploadDir := "/var/data/uploads/inscription_caracterizacion/4",
        finalFileName := "a.pdf", record_id := "4", table_name := "pi_capacitacion",
        file_path := "/uploads/pi_capacitacion/4/a.pdf", source := "unknown" } :
          UploadOut).file_path =
        pathJoin ["/uploads", "pi_capacitacion", "4", "a.pdf"] ∧
      ({ uploadDir := "/var/data/uploads/inscription_caracterizacion/4",
         finalFileName := "a.pdf", record_id := "4", table_name := "pi_capacitacion",
         file_path := "/uploads/pi_capacitacion/4/a.pdf", source := "unknown" } :
           UploadOut).record_id = "4") ∧
    (({ uploadDir := "/var/data/uploads/provider_proveedores/3",
        finalFileName := "b.pdf", record_id := "3", table_name := "provider_proveedores",
        file_path := "/uploads/provider_proveedores/3/b.pdf", source := "unknown" } :
          UploadOut).file_path =
        pathJoin ["/uploads", "provider_proveedores", "3", "b.pdf"]) := by
  refine ⟨?_, ?_⟩
  · have h := uploadFilePath_amended.1 "pi_capacitacion" "9" none none "4" "a.pdf"
      { uploadDir := "/var/data/uploads/inscription_caracterizacion/4",
        finalFileName := "a.pdf", record_id := "4", table_name := "pi_capacitacion",
        file_path := "/uploads/pi_capacitacion/4/a.pdf", source := "unknown" }
      rfl (by decide) rfl
    exact ⟨h.1, h.2.1⟩
  · have h := uploadFilePath_amended.2 "provider_proveedores" "3" none none none "b.pdf"
      { uploadDir := "/var/data/uploads/provider_proveedores/3",
        finalFileName := "b.pdf", record_id := "3", table_name := "provider_proveedores",
        file_path := "/uploads/provider_proveedores/3/b.pdf", source := "unknown" }
      rfl rfl rfl
    exact h.1

/-! ## C9: CSV import temporary-file cleanup -/

/-- C9 (counterexample): a CSV import that did receive an uploaded file but
names a missing table — or a table for which the catalog reports no
columns — returns the 404 early and never unlinks the temporary file. -/
theorem csvCleanup_counterexample :
    uploadCsv true false [] [] true = (.tableMissing, false) ∧
    uploadCsv true true [] [] true = (.noColumns, false) :=
  ⟨rfl, rfl⟩

/-- C9 (amended): with a file uploaded, the temporary file is unlinked
exactly when the import reaches the insertion phase — on bulk-insert
success and on bulk-insert failure alike — that is, when the table exists
and the catalog reports columns for it; the early validation failures
leave the temporary file on disk. -/
theorem csvCleanup_amended (tableExists : Bool) (cols : List CsvCol)
    (csvRows : List Row) (bulkOk : Bool) :
    (uploadCsv true tableExists cols csvRows bulkOk).2 =
      (tableExists && !cols.isEmpty) := by
  cases tableExists
  · rfl
  · cases cols with
    | nil => rfl
    | cons c rest => cases bulkOk <;> simp [uploadCsv]

/-! ## C4: partial-update semantics of the two update controllers -/

/-- Filtered input keys stay duplicate-free when the request body's keys
are (JS objects cannot carry duplicate keys). -/
theorem filterData_keys_nodup {cols : List String} {data : List (String × Value)}
    (h : (data.map Prod.fst).Nodup) : ((filterData cols data).map Prod.fst).Nodup := by
  have hsub : List.Sublist ((filterData cols data).map Prod.fst) (data.map Prod.fst) :=
    (List.filter_sublist data).map Prod.fst
  exact h.sublist hsub

/-- C4: for both update controllers — `updateTableRecord` on
`provider_`/`inscription_` tables and `updatePiRecord` on `pi_` tables,
which share one body past their prefix guards — a missing record id fails
NotFound with the table unchanged; otherwise exactly the input fields that
name a live column and carry a non-null, non-undefined value survive the
filter and are applied, every other column keeps its prior value, zero
surviving fields fails NoValidFields with no change, and success returns
the full updated row. -/
theorem updateRecord_partialUpdate (t₁ t₂ : String) (cols : List String) (rows : List Row)
    (rid : Int) (data : List (String × Value))
    (h₁ : strStartsWith t₁ "provider_" = true ∨ strStartsWith t₁ "inscription_" = true)
    (h₂ : strStartsWith t₂ "pi_" = true) :
    updateTableRecord t₁ cols rows rid data = updateRecordCore cols rows rid data ∧
    updatePiRecord t₂ cols rows rid data = updateRecordCore cols rows rid data ∧
    (rows.find? (rowIdIs rid) = none →
      updateRecordCore cols rows rid data = (.notFound, rows)) ∧
    (∀ p, p ∈ filterData cols data ↔
      p ∈ data ∧ p.1 ∈ cols ∧ p.2 ≠ .vNull ∧ p.2 ≠ .vUndef) ∧
    (∀ r0, rows.find? (rowIdIs rid) = some r0 → cols ≠ [] →
      (filterData cols data = [] →
        updateRecordCore cols rows rid data = (.noValidFields, rows)) ∧
      (filterData cols data ≠ [] →
        updateRecordCore cols rows rid data =
          (.ok (setFields r0 (filterData cols data)),
            rows.map (fun r =>
              if rowIdIs rid r then setFields r (filterData cols data) else r)) ∧
        (∀ k, (∀ p ∈ filterData cols data, p.1 ≠ k) →
          rowGet (setFields r0 (filterData cols data)) k = rowGet r0 k) ∧
        (∀ k v, (data.map Prod.fst).Nodup →
          (filterData cols data).lookup k = some v →
          rowGet (setFields r0 (filterData cols data)) k = some v))) := by
  refine ⟨?_, ?_, ?_, ?_, ?_⟩
  · rcases h₁ with h | h <;> simp [updateTableRecord, h]
  · simp [updatePiRecord, h₂]
  · intro hfind
    simp [updateRecordCore, hfind]
  · intro p
    simp only [filterData, List.mem_filter, Bool.and_eq_true, bne_iff_ne, ne_eq]
    constructor
    · rintro ⟨hp, ⟨hcol, hnn⟩, hnu⟩
      exact ⟨hp, List.mem_of_elem_eq_true hcol, hnn, hnu⟩
    · rintro ⟨hp, hcol, hnn, hnu⟩
      exact ⟨hp, ⟨List.elem_eq_true_of_mem hcol, hnn⟩, hnu⟩
  · intro r0 hfind hcols
    have hne : cols.isEmpty = false := List.isEmpty_eq_false.mpr hcols
    constructor
    · intro hfd
      simp [updateRecordCore, hfind, hne, hfd]
    · intro hfd
      have hfde : (filterData cols data).isEmpty = false := List.isEmpty_eq_false.mpr hfd
      refine ⟨?_, ?_, ?_⟩
      · simp [updateRecordCore, hfind, hne, hfde, updateById]
      · intro k hk
        exact rowGet_setFields_of_not_mem hk
      · intro k v hnd hlook
        exact rowGet_setFields_of_lookup (filterData_keys_nodup hnd) hlook

/-- Witness for C4: a concrete partial update and a concrete missing id. -/
theorem updateRecord_partialUpdate_witness :
    updateTableRecord "provider_x" ["id", "a", "b"]
        [[("id", Value.vInt 1), ("a", Value.vInt 2), ("b", Value.vStr "z")]] 1
        [("a", Value.vInt 5), ("c", Value.vInt 9), ("b", Value.vNull)] =
      (.ok [("id", Value.vInt 1), ("a", Value.vInt 5), ("b", Value.vStr "z")],
        [[("id", Value.vInt 1), ("a", Value.vInt 5), ("b", Value.vStr "z")]]) ∧
    updatePiRecord "pi_y" ["id", "a"] [[("id", Value.vInt 1)]] 7 [("a", Value.vInt 3)] =
      (.notFound, [[("id", Value.vInt 1)]]) := by
  have h := updateRecord_partialUpdate "provider_x" "pi_y" ["id", "a", "b"]
      [[("id", Value.vInt 1), ("a", Value.vInt 2), ("b", Value.vStr "z")]] 1
      [("a", Value.vInt 5), ("c", Value.vInt 9), ("b", Value.vNull)]
      (Or.inl (by decide)) (by decide)
  have h' := updateRecord_partialUpdate "provider_x" "pi_y" ["id", "a"]
      [[("id", Value.vInt 1)]] 7 [("a", Value.vInt 3)]
      (Or.inl (by decide)) (by decide)
  constructor
  · rw [h.1]
    have hs := h.2.2.2.2 [("id", Value.vInt 1), ("a", Value.vInt 2), ("b", Value.vStr "z")]
      (by decide) (by decide)
    rw [(hs.2 (by decide)).1]
    decide
  · rw [h'.2.1]
    exact h'.2.2.1 (by decide)

/-! ## C5: createTable validation and construction -/

/-- Assigning a fresh key appends it to the columns object. -/
theorem assignColumn_of_not_mem {acc : List (String × ColumnDef)} {k : String}
    {v : ColumnDef} (h : ∀ p ∈ acc, p.1 ≠ k) : assignColumn acc k v = acc ++ [(k, v)] := by
  unfold assignColumn
  have hany : acc.any (fun p => p.1 == k) = false := by
    rw [List.any_eq_false]
    intro p hp
    simp [h p hp]
  simp [hany]

/-- A field that `createTable` must reject: blank name, FOREIGN_KEY with no
related table, or an unmapped logical type. -/
def badFieldSpec (f : FieldSpec) : Prop :=
  strTrim f.name = "" ∨
  (f.type = "FOREIGN_KEY" ∧ jsFalsyOptStr f.relatedTable = true) ∨
  (f.type ≠ "FOREIGN_KEY" ∧ createTypeOf f.type = none)

/-- Column produced for one validated field of `createTable`. -/
def fieldColumn (f : FieldSpec) : String × ColumnDef :=
  if f.type == "FOREIGN_KEY" then
    (f.name, fkColumn (f.relatedTable.getD "") (f.allow_null != some false))
  else
    (f.name, { type := (createTypeOf f.type).getD .integer,
               allowNull := f.allow_null != some false })

/-- The column loop rejects any field list containing a bad field. -/
theorem buildColumns_error {fields : List FieldSpec}
    (hbad : ∃ f ∈ fields, badFieldSpec f) :
    ∀ acc, ∃ e, buildColumns acc fields = .error e := by
  induction fields with
  | nil => simp at hbad
  | cons f rest ih =>
    intro acc
    by_cases hblank : (strTrim f.name == "") = true
    · exact ⟨.fieldNameRequired, by simp [buildColumns, hblank]⟩
    by_cases hfk : (f.type == "FOREIGN_KEY") = true
    · by_cases hfalsy : jsFalsyOptStr f.relatedTable = true
      · exact ⟨.fkMissingRelated f.name, by simp [buildColumns, hblank, hfk, hfalsy]⟩
      · have hrest : ∃ g ∈ rest, badFieldSpec g := by
          obtain ⟨g, hg, hbadg⟩ := hbad
          rcases List.mem_cons.mp hg with rfl | hgr
          · exfalso
            rcases hbadg with hb | ⟨_, hf2⟩ | ⟨hnfk, _⟩
            · exact hblank (by simp [hb])
            · exact hfalsy hf2
            · exact hnfk (by simpa using hfk)
          · exact ⟨g, hgr, hbadg⟩
        obtain ⟨e, he⟩ := ih hrest (assignColumn acc f.name
          (fkColumn (f.relatedTable.getD "") (f.allow_null != some false)))
        exact ⟨e, by simpa [buildColumns, hblank, hfk, hfalsy] using he⟩
    · cases hty : createTypeOf f.type with
      | none => exact ⟨.invalidType f.name f.type, by simp [buildColumns, hblank, hfk, hty]⟩
      | some ty =>
        have hrest : ∃ g ∈ rest, badFieldSpec g := by
          obtain ⟨g, hg, hbadg⟩ := hbad
          rcases List.mem_cons.mp hg with rfl | hgr
          · exfalso
            rcases hbadg with hb | ⟨hfk2, _⟩ | ⟨_, hnone⟩
            · exact hblank (by simp [hb])
            · exact hfk (by simp [hfk2])
            · rw [hty] at hnone
              cases hnone
          · exact ⟨g, hgr, hbadg⟩
        obtain ⟨e, he⟩ := ih hrest (assignColumn acc f.name
          { type := ty, allowNull := f.allow_null != some false })
        exact ⟨e, by simpa [buildColumns, hblank, hfk, hty] using he⟩

/-- On success the column loop appends exactly one column per field. -/
theorem buildColumns_ok_shape {fields : List FieldSpec} :
    ∀ {acc cols}, buildColumns acc fields = .ok cols →
    (fields.map FieldSpec.name).Nodup →
    (∀ f ∈ fields, ∀ p ∈ acc, p.1 ≠ f.name) →
    cols = acc ++ fields.map fieldColumn := by
  induction fields with
  | nil =>
    intro acc cols h _ _
    simp only [buildColumns] at h
    cases h
    simp
  | cons f rest ih =>
    intro acc cols h hnd hdisj
    simp only [List.map_cons, List.nodup_cons] at hnd
    by_cases hblank : (strTrim f.name == "") = true
    · simp [buildColumns, hblank] at h
    · have hdisjf : ∀ p ∈ acc, p.1 ≠ f.name :=
        hdisj f (List.mem_cons_self f rest)
      have hstep : ∀ (v : ColumnDef),
          (∀ g ∈ rest, ∀ p ∈ assignColumn acc f.name v, p.1 ≠ g.name) := by
        intro v g hg p hp
        rw [assignColumn_of_not_mem hdisjf] at hp
        rcases List.mem_append.mp hp with hpl | hpr
        · exact hdisj g (List.mem_cons_of_mem f hg) p hpl
        · have hp2 : p = (f.name, v) := by simpa using hpr
          rw [hp2]
          intro hfg
          have hfg' : f.name = g.name := hfg
          exact hnd.1 (by rw [hfg']; exact List.mem_map.mpr ⟨g, hg, rfl⟩)
      by_cases hfk : (f.type == "FOREIGN_KEY") = true
      · by_cases hfalsy : jsFalsyOptStr f.relatedTable
        · simp [buildColumns, hblank, hfk, hfalsy] at h
        · have h' : buildColumns (assignColumn acc f.name
              (fkColumn (f.relatedTable.getD "") (f.allow_null != some false))) rest =
              .ok cols := by
            simpa [buildColumns, hblank, hfk, hfalsy] using h
          have := ih h' hnd.2 (hstep _)
          rw [this, assignColumn_of_not_mem hdisjf]
          simp [fieldColumn, hfk, List.append_assoc]
      · cases hty : createTypeOf f.type with
        | none => simp [buildColumns, hblank, hfk, hty] at h
        | some ty =>
          have h' : buildColumns (assignColumn acc f.name
              { type := ty, allowNull := f.allow_null != some false }) rest = .ok cols := by
            simpa [buildColumns, hblank, hfk, hty] using h
          have := ih h' hnd.2 (hstep _)
          rw [this, assignColumn_of_not_mem hdisjf]
          simp [fieldColumn, hfk, hty, List.append_assoc]

/-- C5: `createTable` fails with a validation error — creating nothing —
whenever the name lacks an allowed prefix, the field list is empty, a
field has a blank name, a FOREIGN_KEY field omits its related table, or a
non-FK field's type falls outside the closed type map; on success the new
table holds the auto-increment integer primary key `id` plus exactly the
requested columns (FOREIGN_KEY columns referencing `relatedTable.id` with
ON UPDATE CASCADE / ON DELETE SET NULL) and the registry gains the name. -/
theorem createTable_contract (db : SchemaDB) (t : String) (fields : List FieldSpec) :
    (allowedTableName t = false → ∃ e, createTable db t fields = .error e) ∧
    (fields = [] → ∃ e, createTable db t fields = .error e) ∧
    ((∃ f ∈ fields, badFieldSpec f) → ∃ e, createTable db t fields = .error e) ∧
    (∀ db', createTable db t fields = .ok db' →
      db'.registry = db.registry ++ [t] ∧
      ((fields.map FieldSpec.name).Nodup → (∀ f ∈ fields, f.name ≠ "id") →
        db'.tables = db.tables ++ [(t, ("id", idColumn) :: fields.map fieldColumn)]) ∧
      idColumn.primaryKey = true ∧ idColumn.autoIncrement = true ∧
      idColumn.type = .integer ∧
      (∀ f ∈ fields, f.type = "FOREIGN_KEY" →
        (fieldColumn f).2.references = some (f.relatedTable.getD "", "id") ∧
        (fieldColumn f).2.onUpdate = some "CASCADE" ∧
        (fieldColumn f).2.onDelete = some "SET NULL")) := by
  refine ⟨?_, ?_, ?_, ?_⟩
  · intro hpre
    by_cases h0 : (t == "" || fields.isEmpty) = true
    · exact ⟨.missingData, by simp [createTable, h0]⟩
    · exact ⟨.invalidName, by simp [createTable, h0, hpre]⟩
  · intro hf
    exact ⟨.missingData, by simp [createTable, hf]⟩
  · intro hbad
    by_cases h0 : (t == "" || fields.isEmpty) = true
    · exact ⟨.missingData, by simp [createTable, h0]⟩
    · by_cases hpre : allowedTableName t
      · obtain ⟨e, he⟩ := buildColumns_error hbad [("id", idColumn)]
        refine ⟨e, ?_⟩
        simp only [createTable, h0, Bool.false_eq_true, if_false, hpre, Bool.not_true, he]
      · exact ⟨.invalidName, by simp [createTable, h0, hpre]⟩
  · intro db' h
    unfold createTable at h
    split at h
    · cases h
    · split at h
      · cases h
      · cases hb : buildColumns [("id", idColumn)] fields with
        | error e => rw [hb] at h; cases h
        | ok cols =>
          rw [hb] at h
          have hdb' :
              db' = { tables := db.tables ++ [(t, cols)], registry := db.registry ++ [t] } := by
            cases h
            rfl
          subst hdb'
          refine ⟨rfl, ?_, rfl, rfl, rfl, ?_⟩
          · intro hnd hid
            have hshape := buildColumns_ok_shape hb hnd ?_
            · rw [hshape]
              simp
            · intro f hf p hp
              have : p = ("id", idColumn) := by simpa using hp
              rw [this]
              exact fun hc => (hid f hf) hc.symm
          · intro f hf hfk
            simp [fieldColumn, hfk, fkColumn]

/-- Witness for C5: a rejected name, a rejected field list, a rejected
field, and a successful creation. -/
theorem createTable_contract_witness :
    (∃ e, createTable ⟨[], []⟩ "clientes" [{ name := "a", type := "TEXT" }] = .error e) ∧
    (∃ e, createTable ⟨[], []⟩ "provider_p" [] = .error e) ∧
    (∃ e, createTable ⟨[], []⟩ "provider_p" [{ name := "a", type := "JSONB" }] = .error e) ∧
    (∀ db', createTable ⟨[], []⟩ "provider_p"
        [{ name := "a", type := "TEXT" },
         { name := "b", type := "FOREIGN_KEY", relatedTable := some "provider_q" }] =
        .ok db' →
      db'.registry = [] ++ ["provider_p"]) := by
  refine ⟨?_, ?_, ?_, ?_⟩
  · exact (createTable_contract ⟨[], []⟩ "clientes" [{ name := "a", type := "TEXT" }]).1
      (by decide)
  · exact (createTable_contract ⟨[], []⟩ "provider_p" []).2.1 rfl
  · exact (createTable_contract ⟨[], []⟩ "provider_p" [{ name := "a", type := "JSONB" }]).2.2.1
      ⟨_, List.mem_singleton.mpr rfl, Or.inr (Or.inr ⟨by decide, rfl⟩)⟩
  · intro db' h
    exact ((createTable_contract ⟨[], []⟩ "provider_p" _).2.2.2 db' h).1

/-! ## C10: the Estado gate on pi_ listings -/

/-- C10: `getTableRecords` on a `pi_` table always inner-joins
`inscription_caracterizacion` through `caracterizacion_id` and gates on
`"Estado" IN (1, 2)`: whatever filters the caller supplies, every returned
record joins some characterization row whose Estado is 1 or 2 — a record
whose characterization Estado lies outside that set is never returned —
and with no filters exactly the rows with such a join partner come back. -/
theorem piListing_estadoGate (t : String) (cols : List (String × String))
    (rows carRows : List Row) (filters : List (String × Value)) (recs : List Row)
    (ht : strStartsWith t "pi_" = true)
    (hres : getTableRecords t cols rows carRows filters = .ok recs) :
    (∀ r ∈ recs, r ∈ rows ∧ ∃ c ∈ carRows,
      sqlEqCells (rowGet r "caracterizacion_id") (rowGet c "id") = true ∧
      (rowGet c "Estado" = some (.vInt 1) ∨ rowGet c "Estado" = some (.vInt 2))) ∧
    (filters = [] → ∀ r, r ∈ rows →
      (∃ c ∈ carRows, sqlEqCells (rowGet r "caracterizacion_id") (rowGet c "id") = true ∧
        (rowGet c "Estado" = some (.vInt 1) ∨ rowGet c "Estado" = some (.vInt 2))) →
      r ∈ recs) := by
  have ha : allowedTableName t = true := by
    simp [allowedTableName, ht]
  simp only [getTableRecords, ha, ht, Bool.not_true, Bool.false_eq_true, if_false, if_true,
    Except.ok.injEq] at hres
  subst hres
  constructor
  · intro r hr
    rw [List.mem_map] at hr
    obtain ⟨rc, hrc, hrc1⟩ := hr
    rw [List.mem_filter] at hrc
    obtain ⟨hbase, hgate⟩ := hrc
    rw [Bool.and_eq_true] at hgate
    rw [List.mem_flatMap] at hbase
    obtain ⟨a, hamem, hrc2⟩ := hbase
    rw [List.mem_map] at hrc2
    obtain ⟨c, hc, hrc3⟩ := hrc2
    rw [List.mem_filter] at hc
    subst hrc3
    subst hrc1
    have hest := hgate.1
    simp only [estadoGate, Bool.not_true, Bool.false_or, Bool.or_eq_true, beq_iff_eq] at hest
    exact ⟨hamem, c, hc.1, hc.2, hest⟩
  · intro hfil r hrmem hex
    subst hfil
    obtain ⟨c, hc, hsql, hest⟩ := hex
    rw [List.mem_map]
    refine ⟨(r, c), ?_, rfl⟩
    rw [List.mem_filter]
    refine ⟨?_, ?_⟩
    · rw [List.mem_flatMap]
      exact ⟨r, hrmem, List.mem_map.mpr ⟨c, List.mem_filter.mpr ⟨hc, hsql⟩, rfl⟩⟩
    · rcases hest with h | h <;> simp [estadoGate, h, List.filterMap]

/-- Witness for C10: a two-row `pi_` table joined against characterizations
with Estado 1 and Estado 4 — only the Estado-1 record survives. -/
theorem piListing_estadoGate_witness :
    getTableRecords "pi_plan" [("id", "integer"), ("caracterizacion_id", "integer")]
        [[("id", Value.vInt 1), ("caracterizacion_id", Value.vInt 1)],
         [("id", Value.vInt 2), ("caracterizacion_id", Value.vInt 2)]]
        [[("id", Value.vInt 1), ("Estado", Value.vInt 1)],
         [("id", Value.vInt 2), ("Estado", Value.vInt 4)]] [] =
      .ok [[("id", Value.vInt 1), ("caracterizacion_id", Value.vInt 1)]] ∧
    ([("id", Value.vInt 1), ("caracterizacion_id", Value.vInt 1)] : Row) ∈
      ([[("id", Value.vInt 1), ("caracterizacion_id", Value.vInt 1)],
        [("id", Value.vInt 2), ("caracterizacion_id", Value.vInt 2)]] : List Row) ∧
    ∃ c ∈ ([[("id", Value.vInt 1), ("Estado", Value.vInt 1)],
            [("id", Value.vInt 2), ("Estado", Value.vInt 4)]] : List Row),
      sqlEqCells (rowGet [("id", Value.vInt 1), ("caracterizacion_id", Value.vInt 1)]
          "caracterizacion_id") (rowGet c "id") = true ∧
      (rowGet c "Estado" = some (.vInt 1) ∨ rowGet c "Estado" = some (.vInt 2)) := by
  have h := piListing_estadoGate "pi_plan" [("id", "integer"), ("caracterizacion_id", "integer")]
      [[("id", Value.vInt 1), ("caracterizacion_id", Value.vInt 1)],
       [("id", Value.vInt 2), ("caracterizacion_id", Value.vInt 2)]]
      [[("id", Value.vInt 1), ("Estado", Value.vInt 1)],
       [("id", Value.vInt 2), ("Estado", Value.vInt 4)]] []
      [[("id", Value.vInt 1), ("caracterizacion_id", Value.vInt 1)]]
      (by decide) rfl
  have hmem := h.1 [("id", Value.vInt 1), ("caracterizacion_id", Value.vInt 1)]
    (List.mem_singleton.mpr rfl)
  exact ⟨rfl, hmem.1, hmem.2⟩

/-! ## C3: upsert by natural key in createTableRecord -/

/-- Surviving filtered fields keep their request-body value: a key bound to
a non-null, non-undefined value of a live column looks up unchanged. -/
theorem filterData_lookup {cols : List String} {data : List (String × Value)} {k : String}
    {v : Value} (h : data.lookup k = some v) (hn : v ≠ .vNull) (hu : v ≠ .vUndef)
    (hc : k ∈ cols) : (filterData cols data).lookup k = some v := by
  induction data with
  | nil => simp [List.lookup] at h
  | cons p rest ih =>
    by_cases hk : (k == p.1) = true
    · have hkp : k = p.1 := beq_iff_eq.mp hk
      have hv : p.2 = v := by simpa [List.lookup, hk] using h
      have hmem : p.1 ∈ cols := hkp ▸ hc
      simp [filterData, List.filter_cons, hv, List.lookup, hk, hmem, hn, hu]
    · have hrest : rest.lookup k = some v := by
        simpa [List.lookup, hk] using h
      have ihv := ih hrest
      by_cases hcond : (cols.contains p.1 && p.2 != Value.vNull && p.2 != Value.vUndef) = true
      · simp only [filterData, List.filter_cons, hcond, if_true, List.lookup, hk]
        simpa [filterData] using ihv
      · have hcond' : (cols.contains p.1 && p.2 != Value.vNull && p.2 != Value.vUndef) = false :=
          Bool.not_eq_true _ ▸ (by simpa using hcond)
        simp only [filterData, List.filter_cons, hcond', Bool.false_eq_true, if_false]
        simpa [filterData] using ihv

/-- C3: on a `pi_` table other than `pi_formulacion`, two sequential
`createTableRecord` calls carrying the same truthy caracterizacion id
leave exactly one row for that id: the first call inserts a fresh row, the
second finds it by the natural key and updates it, its filtered fields
overwriting the first call's; on `pi_formulacion` the natural key is the
pair (caracterizacion_id, rel_id_prov) and a fresh row is inserted when no
row matches the pair. -/
theorem createTableRecord_upsert (t : String) (cols : List String) (st : PiState)
    (data₁ data₂ : List (String × Value)) (cid : Value)
    (ht : strStartsWith t "pi_" = true)
    (hnf : t ≠ "pi_formulacion")
    (hcols : cols ≠ [])
    (hcin : "caracterizacion_id" ∈ cols)
    (h₁ : data₁.lookup "caracterizacion_id" = some cid)
    (h₂ : data₂.lookup "caracterizacion_id" = some cid)
    (htr : cid.truthy = true)
    (hid₁ : ∀ p ∈ data₁, p.1 ≠ "id")
    (hnd₂ : (data₂.map Prod.fst).Nodup)
    (hnomatch : ∀ r ∈ st.rows, matchesField "caracterizacion_id" cid r = false)
    (hfresh : ∀ r ∈ st.rows, matchesField "id" (.vInt st.nextId) r = false) :
    createTableRecord t cols st data₁ =
      (.created (("id", .vInt st.nextId) :: filterData cols data₁),
        ⟨st.rows ++ [("id", .vInt st.nextId) :: filterData cols data₁], st.nextId + 1⟩) ∧
    createTableRecord t cols
        ⟨st.rows ++ [("id", .vInt st.nextId) :: filterData cols data₁], st.nextId + 1⟩ data₂ =
      (.updated (setFields (("id", .vInt st.nextId) :: filterData cols data₁)
          (filterData cols data₂)),
        ⟨st.rows ++ [setFields (("id", .vInt st.nextId) :: filterData cols data₁)
            (filterData cols data₂)], st.nextId + 1⟩) ∧
    ((st.rows ++ [setFields (("id", .vInt st.nextId) :: filterData cols data₁)
        (filterData cols data₂)]).filter
      (matchesField "caracterizacion_id" cid)).length = 1 ∧
    (∀ (cols' : List String) (st' : PiState) (data : List (String × Value)) (cid' rel' : Value),
      cols' ≠ [] →
      (filterData cols' data).lookup "caracterizacion_id" = some cid' →
      (filterData cols' data).lookup "rel_id_prov" = some rel' →
      cid'.truthy = true → rel'.truthy = true →
      (∀ r ∈ st'.rows, (matchesField "caracterizacion_id" cid' r &&
        matchesField "rel_id_prov" rel' r) = false) →
      createTableRecord "pi_formulacion" cols' st' data =
        (.created (insertRow (filterData cols' data) st'.nextId),
          ⟨st'.rows ++ [insertRow (filterData cols' data) st'.nextId], st'.nextId + 1⟩)) := by
  have hguard : (!strStartsWith t "pi_") = false := by simp [ht]
  have hcolsE : cols.isEmpty = false := List.isEmpty_eq_false.mpr hcols
  have hne : (t == "pi_formulacion") = false := beq_eq_false_iff_ne.mpr hnf
  have hnn : cid ≠ .vNull := Value.ne_null_of_truthy htr
  have hfd₁ : (filterData cols data₁).lookup "caracterizacion_id" = some cid :=
    filterData_lookup h₁ hnn (Value.ne_undef_of_truthy htr) hcin
  have hfd₂ : (filterData cols data₂).lookup "caracterizacion_id" = some cid :=
    filterData_lookup h₂ hnn (Value.ne_undef_of_truthy htr) hcin
  have hfind₁ : st.rows.find? (matchesField "caracterizacion_id" cid) = none :=
    List.find?_eq_none.mpr (fun r hr => by simp [hnomatch r hr])
  have hinsrow : insertRow (filterData cols data₁) st.nextId =
      ("id", .vInt st.nextId) :: filterData cols data₁ := by
    unfold insertRow
    have hnone : (filterData cols data₁).lookup "id" = none := by
      apply lookup_eq_none_of_keys_ne
      intro p hp
      exact hid₁ p (List.mem_of_mem_filter hp)
    simp [hnone]
  have e₁ : createTableRecord t cols st data₁ =
      (.created (("id", .vInt st.nextId) :: filterData cols data₁),
        ⟨st.rows ++ [("id", .vInt st.nextId) :: filterData cols data₁], st.nextId + 1⟩) := by
    simp only [createTableRecord, hguard, Bool.false_eq_true, if_false, hcolsE, hne,
      hfd₁, htr, if_true, hfind₁, upsertInsert, hinsrow]
  refine ⟨e₁, ?_, ?_, ?_⟩
  · have hmatchNew : matchesField "caracterizacion_id" cid
        (("id", .vInt st.nextId) :: filterData cols data₁) = true := by
      unfold matchesField rowGet
      have hk : ("caracterizacion_id" == "id") = false := by decide
      simp only [List.lookup, hk, hfd₁, sqlEq_self hnn]
    have hfind₂ : (st.rows ++ [("id", .vInt st.nextId) :: filterData cols data₁]).find?
        (matchesField "caracterizacion_id" cid) =
        some (("id", .vInt st.nextId) :: filterData cols data₁) := by
      rw [find?_append_of_none hnomatch]
      simp [List.find?, hmatchNew]
    have hgetId : rowGet (("id", .vInt st.nextId) :: filterData cols data₁) "id" =
        some (.vInt st.nextId) := by
      simp [rowGet, List.lookup]
    have hupd : updateById (st.rows ++ [("id", .vInt st.nextId) :: filterData cols data₁])
        st.nextId (filterData cols data₂) =
        st.rows ++ [setFields (("id", .vInt st.nextId) :: filterData cols data₁)
          (filterData cols data₂)] := by
      unfold updateById
      rw [List.map_append]
      congr 1
      · have hcongr : st.rows.map (fun r =>
            if rowIdIs st.nextId r then setFields r (filterData cols data₂) else r) =
            st.rows.map id :=
          List.map_congr_left (fun r hr => by simp [rowIdIs, hfresh r hr])
        rw [hcongr, List.map_id]
      · have hidmatch : rowIdIs st.nextId
            (("id", .vInt st.nextId) :: filterData cols data₁) = true := by
          unfold rowIdIs matchesField
          rw [hgetId]
          simp [sqlEq]
        simp [hidmatch]
    simp only [createTableRecord, hguard, Bool.false_eq_true, if_false, hcolsE, hne,
      hfd₂, htr, if_true, hfind₂, upsertUpdate, hgetId, hupd]
  · have hmatchFinal : matchesField "caracterizacion_id" cid
        (setFields (("id", .vInt st.nextId) :: filterData cols data₁)
          (filterData cols data₂)) = true := by
      unfold matchesField
      rw [rowGet_setFields_of_lookup (filterData_keys_nodup hnd₂) hfd₂]
      simp [sqlEq_self hnn]
    rw [List.filter_append]
    have h1 : st.rows.filter (matchesField "caracterizacion_id" cid) = [] := by
      rw [List.filter_eq_nil_iff]
      intro r hr
      simp [hnomatch r hr]
    rw [h1]
    simp [List.filter, hmatchFinal]
  · intro cols' st' data cid' rel' hcols' hlc hlr htc htrr hnom
    have hguard' : (!strStartsWith "pi_formulacion" "pi_") = false := by decide
    have hcolsE' : cols'.isEmpty = false := List.isEmpty_eq_false.mpr hcols'
    have hfind' : st'.rows.find? (fun r => matchesField "caracterizacion_id" cid' r &&
        matchesField "rel_id_prov" rel' r) = none :=
      List.find?_eq_none.mpr (fun r hr => by simp [hnom r hr])
    simp only [createTableRecord, hguard', Bool.false_eq_true, if_false, hcolsE',
      beq_self_eq_true, if_true, hlc, hlr, htc, htrr, Bool.and_self, hfind', upsertInsert]

/-- Witness for C3: two upsert calls on `pi_datos` with caracterizacion id
9 — the first inserts, the second overwrites `monto` on the same row. -/
theorem createTableRecord_upsert_witness :
    createTableRecord "pi_datos" ["id", "caracterizacion_id", "monto"] ⟨[], 1⟩
        [("caracterizacion_id", Value.vInt 9), ("monto", Value.vInt 10)] =
      (.created [("id", Value.vInt 1), ("caracterizacion_id", Value.vInt 9),
          ("monto", Value.vInt 10)],
        ⟨[[("id", Value.vInt 1), ("caracterizacion_id", Value.vInt 9),
          ("monto", Value.vInt 10)]], 2⟩) ∧
    createTableRecord "pi_datos" ["id", "caracterizacion_id", "monto"]
        ⟨[[("id", Value.vInt 1), ("caracterizacion_id", Value.vInt 9),
          ("monto", Value.vInt 10)]], 2⟩
        [("caracterizacion_id", Value.vInt 9), ("monto", Value.vInt 20)] =
      (.updated [("id", Value.vInt 1), ("caracterizacion_id", Value.vInt 9),
          ("monto", Value.vInt 20)],
        ⟨[[("id", Value.vInt 1), ("caracterizacion_id", Value.vInt 9),
          ("monto", Value.vInt 20)]], 2⟩) := by
  have h := createTableRecord_upsert "pi_datos" ["id", "caracterizacion_id", "monto"] ⟨[], 1⟩
      [("caracterizacion_id", Value.vInt 9), ("monto", Value.vInt 10)]
      [("caracterizacion_id", Value.vInt 9), ("monto", Value.vInt 20)] (Value.vInt 9)
      (by decide) (by decide) (by decide) (by decide) rfl rfl rfl
      (by decide) (by decide) (by decide) (by decide)
  exact ⟨h.1, h.2.1⟩

/-! ## C6: editTable column-deletion guards -/

/-- Filtering out another column's cells leaves a lookup unchanged. -/
theorem lookup_filter_ne {r : Row} {k c : String} (h : k ≠ c) :
    (r.filter (fun p => p.1 != c)).lookup k = r.lookup k := by
  induction r with
  | nil => rfl
  | cons q rest ih =>
    rw [List.filter_cons]
    by_cases hq : ((fun p => p.1 != c) q) = true
    · rw [if_pos hq]
      simp only [List.lookup]
      cases hk : (k == q.1)
      · exact ih
      · rfl
    · rw [if_neg hq]
      have hq3 : q.1 = c := by simpa using hq
      have hk : (k == q.1) = false := beq_eq_false_iff_ne.mpr (by rw [hq3]; exact h)
      have hred : List.lookup k (q :: rest) = List.lookup k rest := by
        simp only [List.lookup, hk]
      rw [hred]
      exact ih

/-- Dropping one column does not change another column's non-null count. -/
theorem countNonNull_dropColumn {ts : TableState} {c d : String} (h : c ≠ d) :
    countNonNull (dropColumn ts d).rows c = countNonNull ts.rows c := by
  unfold countNonNull dropColumn
  simp only
  rw [List.filter_map]
  rw [List.length_map]
  congr 1
  apply List.filter_congr
  intro r _
  simp only [Function.comp_apply, cellNonNull, rowGet]
  rw [lookup_filter_ne h]

/-- A column the deletion pass removed was clean: no non-null data and no
key-column-usage entry. -/
theorem processDeletes_dropped {ds : List String} :
    ∀ {ts : TableState} {c : String}, c ∈ ts.cols →
      c ∉ (processDeletes ts ds).2.cols →
      countNonNull ts.rows c = 0 ∧ c ∉ ts.keyColumnUsage := by
  induction ds with
  | nil =>
    intro ts c hc hc'
    exact absurd hc (by simpa [processDeletes] using hc')
  | cons d rest ih =>
    intro ts c hc hc'
    by_cases hd : d ∈ ts.cols
    · by_cases hcnt : countNonNull ts.rows d > 0
      · rw [show processDeletes ts (d :: rest) = (.columnHasData d, ts) by
          simp [processDeletes, hd, hcnt]] at hc'
        exact absurd hc hc'
      · by_cases hkc : d ∈ ts.keyColumnUsage
        · rw [show processDeletes ts (d :: rest) = (.columnHasFk d, ts) by
            simp [processDeletes, hd, hcnt, hkc]] at hc'
          exact absurd hc hc'
        · rw [show processDeletes ts (d :: rest) = processDeletes (dropColumn ts d) rest by
            simp [processDeletes, hd, hcnt, hkc]] at hc'
          by_cases hcd : c = d
          · subst hcd
            exact ⟨by omega, hkc⟩
          · have hc2 : c ∈ (dropColumn ts d).cols := by
              simp only [dropColumn]
              exact (List.mem_erase_of_ne hcd).mpr hc
            have := ih hc2 hc'
            rw [countNonNull_dropColumn hcd] at this
            exact this
    · rw [show processDeletes ts (d :: rest) = (.sqlError, ts) by
        simp [processDeletes, hd]] at hc'
      exact absurd hc hc'

/-- The deletion pass never reports success while some listed column holds
data or is bound by a key-column-usage entry. -/
theorem processDeletes_not_ok {ds : List String} :
    ∀ {ts : TableState} {c : String}, c ∈ ds →
      (countNonNull ts.rows c > 0 ∨ c ∈ ts.keyColumnUsage) →
      (processDeletes ts ds).1 ≠ .ok := by
  induction ds with
  | nil =>
    intro ts c hc
    simp at hc
  | cons d rest ih =>
    intro ts c hc hbad
    by_cases hd : d ∈ ts.cols
    · by_cases hcnt : countNonNull ts.rows d > 0
      · simp [processDeletes, hd, hcnt]
      · by_cases hkc : d ∈ ts.keyColumnUsage
        · simp [processDeletes, hd, hcnt, hkc]
        · rw [show processDeletes ts (d :: rest) = processDeletes (dropColumn ts d) rest by
            simp [processDeletes, hd, hcnt, hkc]]
          by_cases hcd : c = d
          · exfalso
            subst hcd
            rcases hbad with hb | hb
            · exact hcnt hb
            · exact hkc hb
          · have hcr : c ∈ rest := by
              rcases List.mem_cons.mp hc with h | h
              · exact absurd h hcd
              · exact h
            apply ih hcr
            rcases hbad with hb | hb
            · left
              rw [countNonNull_dropColumn hcd]
              exact hb
            · right
              exact hb
    · simp [processDeletes, hd]

/-- The first non-droppable listed column names the reported error:
ColumnHasData when it holds data, ColumnHasForeignKey otherwise. -/
theorem processDeletes_first_offender {ds₁ : List String} :
    ∀ {ts : TableState} {c : String} {ds₂ : List String},
      (∀ d ∈ ds₁, d ∈ ts.cols ∧ countNonNull ts.rows d = 0 ∧ d ∉ ts.keyColumnUsage) →
      ds₁.Nodup → c ∉ ds₁ → c ∈ ts.cols →
      (countNonNull ts.rows c > 0 ∨ c ∈ ts.keyColumnUsage) →
      (processDeletes ts (ds₁ ++ c :: ds₂)).1 =
        (if countNonNull ts.rows c > 0 then .columnHasData c else .columnHasFk c) := by
  induction ds₁ with
  | nil =>
    intro ts c ds₂ _ _ _ hc hbad
    by_cases hcnt : countNonNull ts.rows c > 0
    · simp [processDeletes, hc, hcnt]
    · have hkcu : c ∈ ts.keyColumnUsage := by
        rcases hbad with hb | hb
        · exact absurd hb hcnt
        · exact hb
      simp [processDeletes, hc, hcnt, hkcu]
  | cons d ds₁' ih =>
    intro ts c ds₂ hall hnd hcnotin hc hbad
    obtain ⟨hdcol, hdcnt, hdkcu⟩ := hall d (List.mem_cons_self d ds₁')
    have hdcnt' : ¬(countNonNull ts.rows d > 0) := by omega
    have hcd : c ≠ d := fun h => hcnotin (h ▸ List.mem_cons_self d ds₁')
    have hnd' := List.nodup_cons.mp hnd
    have hall' : ∀ d' ∈ ds₁', d' ∈ (dropColumn ts d).cols ∧
        countNonNull (dropColumn ts d).rows d' = 0 ∧
        d' ∉ (dropColumn ts d).keyColumnUsage := by
      intro d' hd'
      obtain ⟨h1, h2, h3⟩ := hall d' (List.mem_cons_of_mem d hd')
      have hdd : d' ≠ d := fun h => hnd'.1 (h ▸ hd')
      refine ⟨?_, ?_, h3⟩
      · simp only [dropColumn]
        exact (List.mem_erase_of_ne hdd).mpr h1
      · rw [countNonNull_dropColumn hdd]
        exact h2
    have hcnotin' : c ∉ ds₁' := fun h => hcnotin (List.mem_cons_of_mem d h)
    have hc' : c ∈ (dropColumn ts d).cols := by
      simp only [dropColumn]
      exact (List.mem_erase_of_ne hcd).mpr hc
    have hbad' : countNonNull (dropColumn ts d).rows c > 0 ∨
        c ∈ (dropColumn ts d).keyColumnUsage := by
      rcases hbad with hb | hb
      · left
        rw [countNonNull_dropColumn hcd]
        exact hb
      · right
        exact hb
    have hrec : processDeletes ts ((d :: ds₁') ++ c :: ds₂) =
        processDeletes (dropColumn ts d) (ds₁' ++ c :: ds₂) := by
      simp [processDeletes, hdcol, hdcnt', hdkcu]
    rw [hrec, ih hall' hnd'.2 hcnotin' hc' hbad', countNonNull_dropColumn hcd]

/-- C6: in `editTable`'s deletion pass (no edits, no adds requested), a
listed column holding any non-null value anywhere makes the call fail and
survives; a clean column bound by a key-column-usage constraint makes the
call fail and survives; every column the call actually dropped held no
non-null data and no constraint; and the first offending column names the
error — ColumnHasData when it holds data, ColumnHasForeignKey when it is
constraint-bound. -/
theorem editTable_deleteGuards (ts : TableState) (ds : List String) :
    (∀ c ∈ ds, countNonNull ts.rows c > 0 →
      (editTable ts [] [] ds).1 ≠ .ok ∧
      (c ∈ ts.cols → c ∈ (editTable ts [] [] ds).2.cols)) ∧
    (∀ c ∈ ds, countNonNull ts.rows c = 0 → c ∈ ts.keyColumnUsage →
      (editTable ts [] [] ds).1 ≠ .ok ∧
      (c ∈ ts.cols → c ∈ (editTable ts [] [] ds).2.cols)) ∧
    (∀ c, c ∈ ts.cols → c ∉ (editTable ts [] [] ds).2.cols →
      countNonNull ts.rows c = 0 ∧ c ∉ ts.keyColumnUsage) ∧
    (∀ ds₁ c ds₂, ds = ds₁ ++ c :: ds₂ →
      (∀ d ∈ ds₁, d ∈ ts.cols ∧ countNonNull ts.rows d = 0 ∧ d ∉ ts.keyColumnUsage) →
      ds₁.Nodup → c ∉ ds₁ → c ∈ ts.cols →
      (countNonNull ts.rows c > 0 ∨ c ∈ ts.keyColumnUsage) →
      (editTable ts [] [] ds).1 =
        (if countNonNull ts.rows c > 0 then .columnHasData c else .columnHasFk c)) := by
  have hE : editTable ts [] [] ds = processDeletes ts ds := rfl
  rw [hE]
  refine ⟨?_, ?_, ?_, ?_⟩
  · intro c hc hdata
    refine ⟨processDeletes_not_ok hc (Or.inl hdata), ?_⟩
    intro hcol
    by_contra habs
    have := processDeletes_dropped hcol habs
    omega
  · intro c hc hclean hkcu
    refine ⟨processDeletes_not_ok hc (Or.inr hkcu), ?_⟩
    intro hcol
    by_contra habs
    exact (processDeletes_dropped hcol habs).2 hkcu
  · intro c hcol habs
    exact processDeletes_dropped hcol habs
  · intro ds₁ c ds₂ hds hall hnd hcni hcc hbad
    rw [hds]
    exact processDeletes_first_offender hall hnd hcni hcc hbad

/-- Witness for C6: deleting droppable `b` then data-bearing `a` fails with
ColumnHasData on `a`, keeps `a`, and only `b` (clean, unconstrained) is
dropped. -/
theorem editTable_deleteGuards_witness :
    ((editTable ⟨["id", "a", "b"], [[("id", Value.vInt 1), ("a", Value.vInt 3)]], ["id"]⟩
        [] [] ["b", "a"]).1 ≠ .ok ∧
      ("a" ∈ (["id", "a", "b"] : List String) →
        "a" ∈ (editTable ⟨["id", "a", "b"],
          [[("id", Value.vInt 1), ("a", Value.vInt 3)]], ["id"]⟩ [] [] ["b", "a"]).2.cols)) ∧
    (editTable ⟨["id", "a", "b"], [[("id", Value.vInt 1), ("a", Value.vInt 3)]], ["id"]⟩
        [] [] ["b", "a"]).1 =
      (if countNonNull [[("id", Value.vInt 1), ("a", Value.vInt 3)]] "a" > 0 then
        .columnHasData "a" else .columnHasFk "a") := by
  have h := editTable_deleteGuards
    ⟨["id", "a", "b"], [[("id", Value.vInt 1), ("a", Value.vInt 3)]], ["id"]⟩ ["b", "a"]
  refine ⟨h.1 "a" (by decide) (by decide), ?_⟩
  exact h.2.2.2 ["b"] "a" [] rfl (by decide) (by decide) (by decide) (by decide)
    (Or.inl (by decide))

/-! ## C8: relatedData resolution and the display field -/

/-- Display-field choice as the specification words it, for comparison
with the source's: the first catalog-declared column other than `id`,
regardless of its type. -/
def specDisplayField (cols : List (String × String)) : String :=
  ((cols.map Prod.fst).find? (fun c => c != "id")).getD "id"

/-- C8 (counterexample): the related table `inscription_tipos` declares
`monto` (numeric) before `nombre` (text); the claim's display field — the
first catalog column other than `id` — is `monto` with value 50, yet the
controller's relatedData entry carries the `nombre` value "A", because the
dynamically defined model drops the numeric column before the display
field is chosen. -/
theorem relatedDataDisplay_counterexample :
    getTableRecordById "inscription_main"
      [("inscription_main", [("id", "integer"), ("tipo_id", "integer")]),
       ("inscription_tipos", [("id", "integer"), ("monto", "numeric"), ("nombre", "text")])]
      [("inscription_main", [[("id", Value.vInt 1), ("tipo_id", Value.vInt 1)]]),
       ("inscription_tipos", [[("id", Value.vInt 1), ("monto", Value.vInt 50),
         ("nombre", Value.vStr "A")]])]
      [("tipo_id", "inscription_tipos")] 1 =
      .ok ([("id", Value.vInt 1), ("tipo_id", Value.vInt 1)],
        [("tipo_id", [(Value.vInt 1, Value.vStr "A")])]) ∧
    specDisplayField [("id", "integer"), ("monto", "numeric"), ("nombre", "text")] =
      "monto" ∧
    rowGet [("id", Value.vInt 1), ("monto", Value.vInt 50), ("nombre", Value.vStr "A")]
      "monto" = some (Value.vInt 50) ∧
    Value.vStr "A" ≠ Value.vInt 50 := by
  refine ⟨rfl, rfl, rfl, by decide⟩

/-- Entry contributed by one foreign key into a related table: `none` when
the domain filter skips it, the name is empty, or the related table has no
rows. -/
def fkEntry (t : String) (catalog : Catalog) (rowsOf : TableRows) (rel : String) :
    Option (List (Value × Value)) :=
  if !domainCompatible t rel then none
  else if rel == "" then none
  else relatedEntry catalog rowsOf rel

/-- One resolver step, rephrased through `fkEntry`. -/
theorem relatedStep_eq (t : String) (catalog : Catalog) (rowsOf : TableRows)
    (acc : List (String × List (Value × Value))) (fk : String × String) :
    relatedStep t catalog rowsOf acc fk =
      match fkEntry t catalog rowsOf fk.2 with
      | none => acc
      | some e => assignEntry acc fk.1 e := by
  cases hdom : domainCompatible t fk.2
  · simp [relatedStep, fkEntry, hdom]
  · cases hemp : (fk.2 == "")
    · cases hre : relatedEntry catalog rowsOf fk.2 <;>
        simp [relatedStep, fkEntry, hdom, hemp, hre]
    · simp [relatedStep, fkEntry, hdom, hemp]

/-- Assigning a fresh key appends it to the relatedData object. -/
theorem assignEntry_of_not_mem {acc : List (String × List (Value × Value))} {k : String}
    {v : List (Value × Value)} (h : ∀ p ∈ acc, p.1 ≠ k) :
    assignEntry acc k v = acc ++ [(k, v)] := by
  unfold assignEntry
  have hany : acc.any (fun p => p.1 == k) = false := by
    rw [List.any_eq_false]
    intro p hp
    simp [h p hp]
  simp [hany]

/-- The resolver fold appends one optional entry per foreign key. -/
theorem relatedDataOf_go {t : String} {catalog : Catalog} {rowsOf : TableRows} :
    ∀ (fks : List (String × String)) (acc : List (String × List (Value × Value))),
      (∀ fk ∈ fks, ∀ p ∈ acc, p.1 ≠ fk.1) →
      (fks.map Prod.fst).Nodup →
      fks.foldl (relatedStep t catalog rowsOf) acc =
        acc ++ fks.filterMap (fun fk =>
          (fkEntry t catalog rowsOf fk.2).map (fun e => (fk.1, e))) := by
  intro fks
  induction fks with
  | nil =>
    intro acc _ _
    simp
  | cons fk rest ih =>
    intro acc hdisj hnd
    simp only [List.map_cons, List.nodup_cons] at hnd
    rw [List.foldl_cons, relatedStep_eq]
    cases hre : fkEntry t catalog rowsOf fk.2 with
    | none =>
      simp only [List.filterMap_cons, hre, Option.map_none]
      exact ih acc (fun g hg p hp => hdisj g (List.mem_cons_of_mem fk hg) p hp) hnd.2
    | some e =>
      simp only [List.filterMap_cons, hre, Option.map_some]
      rw [assignEntry_of_not_mem (hdisj fk (List.mem_cons_self fk rest))]
      rw [ih (acc ++ [(fk.1, e)]) ?_ hnd.2]
      · simp
      · intro g hg p hp
        rcases List.mem_append.mp hp with hpl | hpr
        · exact hdisj g (List.mem_cons_of_mem fk hg) p hpl
        · have hp2 : p = (fk.1, e) := by simpa using hpr
          rw [hp2]
          intro hfg
          have hfg' : fk.1 = g.1 := hfg
          exact hnd.1 (by rw [hfg']; exact List.mem_map.mpr ⟨g, hg, rfl⟩)

/-- Looking a column up in the keyed filterMap yields its own entry. -/
theorem lookup_filterMap_keyed {c rel : String}
    (f : String → Option (List (Value × Value))) :
    ∀ {fks : List (String × String)}, (fks.map Prod.fst).Nodup → (c, rel) ∈ fks →
      (fks.filterMap (fun fk => (f fk.2).map (fun e => (fk.1, e)))).lookup c = f rel := by
  intro fks
  induction fks with
  | nil =>
    intro _ hmem
    simp at hmem
  | cons fk rest ih =>
    intro hnd hmem
    simp only [List.map_cons, List.nodup_cons] at hnd
    rcases List.mem_cons.mp hmem with hfk | hrest
    · subst hfk
      cases hre : f rel with
      | none =>
        have hstep : List.filterMap (fun fk => Option.map (fun e => (fk.1, e)) (f fk.2))
            ((c, rel) :: rest) =
            List.filterMap (fun fk => Option.map (fun e => (fk.1, e)) (f fk.2)) rest := by
          rw [List.filterMap_cons]
          simp [hre]
        rw [hstep]
        apply lookup_eq_none_of_keys_ne
        intro p hp
        rw [List.mem_filterMap] at hp
        obtain ⟨g, hg, hpg⟩ := hp
        cases hge : f g.2 with
        | none =>
          rw [hge] at hpg
          cases hpg
        | some e =>
          rw [hge] at hpg
          have hp1 : p.1 = g.1 := by
            cases hpg
            rfl
          rw [hp1]
          intro hgc
          exact hnd.1 (by rw [← hgc]; exact List.mem_map.mpr ⟨g, hg, rfl⟩)
      | some e =>
        have hstep : List.filterMap (fun fk => Option.map (fun e => (fk.1, e)) (f fk.2))
            ((c, rel) :: rest) =
            (c, e) :: List.filterMap (fun fk => Option.map (fun e => (fk.1, e)) (f fk.2))
              rest := by
          rw [List.filterMap_cons]
          simp [hre]
        rw [hstep]
        simp [List.lookup]
    · have hcrest : c ∈ rest.map Prod.fst := List.mem_map.mpr ⟨(c, rel), hrest, rfl⟩
      have hne : fk.1 ≠ c := fun h => hnd.1 (h ▸ hcrest)
      cases hre : f fk.2 with
      | none =>
        have hstep : List.filterMap (fun fk => Option.map (fun e => (fk.1, e)) (f fk.2))
            (fk :: rest) =
            List.filterMap (fun fk => Option.map (fun e => (fk.1, e)) (f fk.2)) rest := by
          rw [List.filterMap_cons]
          simp [hre]
        rw [hstep]
        exact ih hnd.2 hrest
      | some e =>
        have hstep : List.filterMap (fun fk => Option.map (fun e => (fk.1, e)) (f fk.2))
            (fk :: rest) =
            (fk.1, e) :: List.filterMap (fun fk => Option.map (fun e => (fk.1, e)) (f fk.2))
              rest := by
          rw [List.filterMap_cons]
          simp [hre]
        rw [hstep]
        have hk : (c == fk.1) = false := beq_eq_false_iff_ne.mpr (Ne.symm hne)
        simp only [List.lookup, hk]
        exact ih hnd.2 hrest

/-- C8 (amended): for an existing record, each foreign-key column whose
related table passes the domain filter and holds at least one row
contributes a relatedData entry listing every row of the related table as
(id, displayValue) — but the display field is the first column other than
`id` among the columns whose catalog type the dynamic model supports
(varchar, character varying, text, integer, boolean, date), columns of
other types being invisible to it, with `id` as fallback when no such
column exists; a domain-incompatible relation or an empty related table
contributes no entry at all. -/
theorem relatedDataDisplay_amended (t : String) (fks : List (String × String))
    (catalog : Catalog) (rowsOf : TableRows) (c rel : String) (r : Row) (rid : Int)
    (rows : List Row) (relData : List (String × List (Value × Value)))
    (hnd : (fks.map Prod.fst).Nodup)
    (hmem : (c, rel) ∈ fks)
    (hres : getTableRecordById t catalog rowsOf fks rid = .ok (r, relData))
    (hrows : (rowsOf.lookup rel).getD [] = rows) :
    (domainCompatible t rel = true → rel ≠ "" → rows ≠ [] →
      relData.lookup c = some (rows.map (fun row =>
        ((rowGet row "id").getD .vNull,
         (rowGet row (displayFieldOf (modelAttrs ((catalog.lookup rel).getD [])))).getD
           .vNull)))) ∧
    (domainCompatible t rel = false → relData.lookup c = none) ∧
    (rows = [] → relData.lookup c = none) ∧
    displayFieldOf (modelAttrs ((catalog.lookup rel).getD [])) =
      (((((catalog.lookup rel).getD []).filter (fun col =>
          modelTypeNames.contains (strToLower col.2))).map Prod.fst).find?
        (fun col => col != "id")).getD "id" := by
  have hrel : relData = relatedDataOf t fks catalog rowsOf := by
    unfold getTableRecordById at hres
    by_cases hcols : ((catalog.lookup t).getD []).isEmpty = true
    · simp [hcols] at hres
    · simp only [hcols, Bool.false_eq_true, if_false] at hres
      cases hfind : ((rowsOf.lookup t).getD []).find? (rowIdIs rid) with
      | none =>
        rw [hfind] at hres
        cases hres
      | some rr =>
        rw [hfind] at hres
        simp only [Except.ok.injEq, Prod.mk.injEq] at hres
        exact hres.2.symm
  have hlook : relData.lookup c = fkEntry t catalog rowsOf rel := by
    rw [hrel]
    unfold relatedDataOf
    rw [relatedDataOf_go fks [] (by simp) hnd, List.nil_append]
    exact lookup_filterMap_keyed (fkEntry t catalog rowsOf) hnd hmem
  refine ⟨?_, ?_, ?_, rfl⟩
  · intro hdom hne hnonempty
    rw [hlook]
    unfold fkEntry relatedEntry
    have hbe : (rel == "") = false := beq_eq_false_iff_ne.mpr hne
    have hie2 : rows.isEmpty = false := List.isEmpty_eq_false.mpr hnonempty
    simp only [hdom, Bool.not_true, Bool.false_eq_true, if_false, hbe, hrows, hie2]
  · intro hdom
    rw [hlook]
    simp [fkEntry, hdom]
  · intro hempty
    rw [hlook]
    unfold fkEntry relatedEntry
    have hie : ((rowsOf.lookup rel).getD []).isEmpty = true := by
      rw [hrows, hempty]
      rfl
    cases hdom : domainCompatible t rel
    · simp [hdom]
    · cases hbe : (rel == "")
      · simp [hdom, hbe, hie]
      · simp [hdom, hbe]

/-- Witness for the amended C8: a provider-domain relation whose related
table leads with an unsupported numeric column. -/
theorem relatedDataDisplay_amended_witness :
    ([("tipo_id", [(Value.vInt 4, Value.vStr "X")])] :
        List (String × List (Value × Value))).lookup "tipo_id" =
      some ([[("id", Value.vInt 4), ("peso", Value.vInt 7), ("nombre", Value.vStr "X")]].map
        (fun row =>
          ((rowGet row "id").getD .vNull,
           (rowGet row (displayFieldOf (modelAttrs
             ((List.lookup "provider_tipos"
               [("provider_tipos",
                 [("id", "integer"), ("peso", "numeric"), ("nombre", "text")])]).getD
               [])))).getD .vNull))) := by
  have h := relatedDataDisplay_amended "provider_main" [("tipo_id", "provider_tipos")]
      [("provider_main", [("id", "integer"), ("tipo_id", "integer")]),
       ("provider_tipos", [("id", "integer"), ("peso", "numeric"), ("nombre", "text")])]
      [("provider_main", [[("id", Value.vInt 1), ("tipo_id", Value.vInt 4)]]),
       ("provider_tipos", [[("id", Value.vInt 4), ("peso", Value.vInt 7),
         ("nombre", Value.vStr "X")]])]
      "tipo_id" "provider_tipos" [("id", Value.vInt 1), ("tipo_id", Value.vInt 4)] 1
      [[("id", Value.vInt 4), ("peso", Value.vInt 7), ("nombre", Value.vStr "X")]]
      [("tipo_id", [(Value.vInt 4, Value.vStr "X")])]
      (by decide) (by decide) rfl rfl
  exact h.1 (by decide) (by decide) (by decide)

end ImpulsoLocal
